import Mathlib

/-!
Verification development for the sidecar observation → extraction → retrieval →
planning → normalization pipeline.

Each definition is a shallow embedding of a function of the Python source
(file and line references are given in the doc comments).  Machine-level
details that the source delegates to the runtime (dict iteration order, list
semantics, truthiness) are modelled explicitly.
-/

namespace Sidecar

/-! ## Fact sets (`sidecar/extract/generic.py`)

A `FactSet` is a Python dict whose values are either a list (leaf) or a dict
of lists (one nesting level — the only shapes the extractor produces).
Dicts are modelled as insertion-ordered association lists with unique keys.
Leaf elements are strings or ints (`artifacts.ports` holds ints). -/

/-- An atom stored in a fact-set leaf: the extractor stores strings
everywhere except `artifacts.ports`, which holds ints. -/
inductive FAtom where
  | s (v : String)
  | n (v : Int)
deriving DecidableEq, Repr

/-- A top-level value of a fact set: a plain list leaf, or a sub-dict of
list leaves (`entities`, `artifacts`, `vulns`, `creds`). -/
inductive FVal where
  | leaf (xs : List FAtom)
  | node (m : List (String × List FAtom))
deriving DecidableEq, Repr

/-- A fact set: insertion-ordered mapping from top-level keys to values. -/
abbrev FactSet := List (String × FVal)

/-- `_empty()` of `extract/generic.py` lines 21–29: the fixed fact-set shape. -/
def emptyFacts : FactSet :=
  [("entities", .node [("ips", []), ("ipv6", []), ("urls", []), ("domains", []), ("emails", [])]),
   ("artifacts", .node [("ports", []), ("services", []), ("files", []), ("banners", [])]),
   ("vulns", .node [("cves", [])]),
   ("creds", .node [("usernames", []), ("passwords", []), ("pairs", [])]),
   ("errors", .leaf []),
   ("indicators", .leaf [])]

/-- `_extend_unique` of `extract/generic.py` lines 31–35: append to `a` the
elements of `b` that are not already present (the Python `seen` set always
agrees with membership in the accumulator, because every appended element is
also added to `seen`). -/
def extendUnique (a b : List FAtom) : List FAtom :=
  b.foldl (fun acc x => if x ∈ acc then acc else acc ++ [x]) a

/-- Elements actually iterated by `_extend_unique(base[k], incoming.get(k, []))`
when `base[k]` is a list: a missing key contributes nothing, a list its
elements, and a dict its keys (Python iterates a dict by key). -/
def incomingLeafFor : Option FVal → List FAtom
  | some (.leaf l) => l
  | some (.node m) => m.map (fun p => .s p.1)
  | none => []

/-- The inner loop of `merge_facts` for `isinstance(base[k], dict) and
isinstance(incoming.get(k), dict)`: only sub-keys already present in the
accumulator are visited (`for sk in base[k]`). -/
def mergeNodeSub (m m2 : List (String × List FAtom)) : List (String × List FAtom) :=
  m.map (fun p => (p.1, extendUnique p.2 ((List.lookup p.1 m2).getD [])))

/-- One iteration of the `for k in base` loop of `merge_facts` (lines 43–48):
a dict value merges sub-key-wise with a dict incoming value (and is untouched
otherwise), a list value is extended with whatever `incoming.get(k, [])`
iterates as. -/
def mergeStep (incoming : FactSet) (p : String × FVal) : String × FVal :=
  match p.2, List.lookup p.1 incoming with
  | .node m, some (.node m2) => (p.1, FVal.node (mergeNodeSub m m2))
  | .node m, _ => (p.1, FVal.node m)
  | .leaf l, iv => (p.1, FVal.leaf (extendUnique l (incomingLeafFor iv)))

/-- `merge_facts` of `extract/generic.py` lines 37–53.  A falsy (empty) base
is replaced by `_empty()`; a falsy incoming returns the base unchanged;
otherwise every base entry absorbs the matching incoming entry and incoming
keys absent from the base are appended verbatim (lines 50–52). -/
def mergeFacts (base incoming : FactSet) : FactSet :=
  let base := if base.isEmpty then emptyFacts else base
  if incoming.isEmpty then base
  else
    base.map (mergeStep incoming)
    ++ incoming.filter (fun q => (List.lookup q.1 base).isNone)

/-- Well-formedness of one fact-set value: a dict-valued entry has unique
sub-keys (a leaf is always fine). -/
def nodupVal : FVal → Prop
  | .leaf _ => True
  | .node m => (m.map Prod.fst).Nodup

instance : DecidablePred nodupVal := by
  intro v
  cases v <;> (unfold nodupVal; infer_instance)

/-- Well-formedness of a fact set as a Python dict: unique top-level keys and
unique sub-keys in every dict-valued entry. -/
def NodupFacts (fs : FactSet) : Prop :=
  (fs.map Prod.fst).Nodup ∧ ∀ p ∈ fs, nodupVal p.2

instance (fs : FactSet) : Decidable (NodupFacts fs) := by
  unfold NodupFacts
  infer_instance

/-- Concrete fact set used to instantiate the merge theorems. -/
def wFactsA : FactSet :=
  [("entities", .node [("ips", [FAtom.s "10.0.0.5"]), ("urls", [])]),
   ("errors", .leaf [FAtom.s "denied"])]

/-- Concrete incoming fact set: repeats one ip, brings a new sub-key
(`ports`) inside an existing category and a new top-level key. -/
def wFactsB : FactSet :=
  [("entities", .node [("ips", [FAtom.s "8.8.8.8", FAtom.s "10.0.0.5"]), ("ports", [FAtom.n 80])]),
   ("indicators", .leaf [FAtom.s "ips:2"])]

/-! ## A small backtracking regex engine

The extractor and the redactor are driven by Python `re` patterns.  We embed
the patterns through a tiny regex AST and a backtracking matcher with
Python's leftmost-first alternation and greedy/lazy repetition order.
Repetition is unfolded on fuel; the scanning entry points pass fuel that is
ample for the embedded patterns (which contain no nested unbounded
repetitions over nullable bodies). -/

/-- Python `\w` (ASCII + underscore; the embedded inputs are ASCII). -/
def isWordChar (c : Char) : Bool := c.isAlphanum || c.toNat == 95

/-- Regex AST: empty, one-character class, sequencing, alternation (left
preferred), counted repetition (greedy or lazy), and `\b`. -/
inductive RE where
  | eps
  | cls (p : Char → Bool)
  | seq (a b : RE)
  | alt (a b : RE)
  | rep (r : RE) (lo : Nat) (hi : Option Nat) (lz : Bool)
  | wb

/-- Is there a word boundary between the previously consumed character and
the next input character? -/
def atBoundary (prev : Option Char) (s : List Char) : Bool :=
  (match prev with | some c => isWordChar c | none => false) !=
    (match s with | c :: _ => isWordChar c | [] => false)

/-- All ways `r` can match a prefix of `s`, in backtracking preference
order; each result is the last consumed character (for `\b`) and the
remaining input.  Structural recursion on fuel keeps the definition
kernel-reducible; the entry points pass fuel far above the recursion depth
of the embedded patterns. -/
def mruns : Nat → RE → Option Char → List Char → List (Option Char × List Char)
  | 0, _, _, _ => []
  | fuel + 1, r, prev, s =>
    match r with
    | .eps => [(prev, s)]
    | .wb => if atBoundary prev s then [(prev, s)] else []
    | .cls p =>
      match s with
      | c :: rest => if p c then [(some c, rest)] else []
      | [] => []
    | .alt a b => mruns fuel a prev s ++ mruns fuel b prev s
    | .seq a b => (mruns fuel a prev s).flatMap (fun q => mruns fuel b q.1 q.2)
    | .rep a lo hi lz =>
      if hi = some 0 then [(prev, s)]
      else
        let step := (mruns fuel a prev s).flatMap
          (fun q => mruns fuel (.rep a (lo - 1) (hi.map (· - 1)) lz) q.1 q.2)
        if lo = 0 then
          if lz then (prev, s) :: step else step ++ [(prev, s)]
        else step

/-- The leftmost-preference match of `r` at the current position. -/
def matchHere (r : RE) (prev : Option Char) (s : List Char) :
    Option (Option Char × List Char) :=
  (mruns (64 * (s.length + 64)) r prev s).head?

/-- Scan of `re.finditer`: try a match at every position, emit the matched
characters, and resume after each (non-empty) match.  Fuel is the input
length plus one; every step consumes at least one character. -/
def scanGo : Nat → RE → Option Char → List Char → List (List Char)
  | 0, _, _, _ => []
  | fuel + 1, r, prev, s =>
    match s with
    | [] =>
      match matchHere r prev [] with
      | some _ => [[]]
      | none => []
    | c :: cs =>
      match matchHere r prev (c :: cs) with
      | some q =>
        if q.2.length < (c :: cs).length then
          ((c :: cs).take ((c :: cs).length - q.2.length)) :: scanGo fuel r q.1 q.2
        else
          [] :: scanGo fuel r (some c) cs
      | none => scanGo fuel r (some c) cs

/-- `pattern.findall(text)` for a pattern without capturing groups. -/
def findall (r : RE) (text : String) : List String :=
  (scanGo (text.toList.length + 1) r none text.toList).map String.mk

/-- Greedy `?`. -/
def reOpt (r : RE) : RE := .alt r .eps

/-- A literal character. -/
def reChar (c : Char) : RE := .cls (fun x => x == c)

/-- A case-insensitive literal character. -/
def reCharCI (c : Char) : RE := .cls (fun x => x.toLower == c.toLower)

/-- `\d`. -/
def reDigit : RE := .cls Char.isDigit

/-- A character range class. -/
def reRange (lo hi : Char) : RE := .cls (fun c => decide (lo ≤ c) && decide (c ≤ hi))

/-- A sequence of literal characters. -/
def reStr (cs : List Char) : RE := cs.foldr (fun c acc => .seq (reChar c) acc) .eps

/-- A sequence of case-insensitive literal characters. -/
def reStrCI (cs : List Char) : RE := cs.foldr (fun c acc => .seq (reCharCI c) acc) .eps

/-- One octet of `RE_IPV4`: `25[0-5]|2[0-4]\d|[01]?\d?\d`, alternatives in
source order. -/
def reOctet : RE :=
  .alt (.seq (reChar '2') (.seq (reChar '5') (reRange '0' '5')))
    (.alt (.seq (reChar '2') (.seq (reRange '0' '4') reDigit))
      (.seq (reOpt (.cls (fun c => c == '0' || c == '1')))
        (.seq (reOpt reDigit) reDigit)))

/-- `RE_IPV4` of `extract/generic.py` line 5:
`\b(?:(?:25[0-5]|2[0-4]\d|[01]?\d?\d)\.){3}(?:25[0-5]|2[0-4]\d|[01]?\d?\d)\b`. -/
def RE_IPV4 : RE :=
  .seq .wb (.seq (.rep (.seq reOctet (reChar '.')) 3 (some 3) false)
    (.seq reOctet .wb))

/-- Python's string comparison: lexicographic on code points. -/
def pyLeAux : List Char → List Char → Bool
  | [], _ => true
  | _ :: _, [] => false
  | a :: as, b :: bs =>
    if a < b then true else if b < a then false else pyLeAux as bs

/-- `a <= b` for Python strings. -/
def pyStrLe (a b : String) : Bool := pyLeAux a.data b.data

/-- Insertion into a run sorted by `pyStrLe`. -/
def pyInsert (x : String) : List String → List String
  | [] => [x]
  | y :: ys => if pyStrLe x y then x :: y :: ys else y :: pyInsert x ys

/-- Ascending sort by Python's string order (insertion sort; on the
duplicate-free lists it is applied to, its output is the unique sorted
arrangement, which is what `sorted` returns). -/
def pySortStrings (l : List String) : List String := l.foldr pyInsert []

/-- The `entities.ips` leaf of `extract_from_text`
(`extract/generic.py` lines 60 and 84): `sorted(set(RE_IPV4.findall(text)))`. -/
def extract_ips (text : String) : List String :=
  pySortStrings (findall RE_IPV4 text).dedup

/-! ## JSON values and Python runtime helpers

Backend responses, plan dictionaries and the orchestrator payload are
Python values produced by `json.loads`.  `JVal` models exactly those values
(JSON numbers are restricted to integers; the planning contract carries no
fractional numbers). -/

inductive JVal where
  | null
  | bool (b : Bool)
  | num (n : Int)
  | flt (lit : String)
  | str (s : String)
  | arr (xs : List JVal)
  | obj (kvs : List (String × JVal))
deriving Repr

/-- Python truthiness of a JSON-shaped value (the only float literal the
embedding builds is the non-zero wire constant `0.2`). -/
def truthy : JVal → Bool
  | .null => false
  | .bool b => b
  | .num n => n != 0
  | .flt _ => true
  | .str s => !s.data.isEmpty
  | .arr xs => !xs.isEmpty
  | .obj kvs => !kvs.isEmpty

/-- Python's short-circuiting `x or y` on JSON-shaped values. -/
def pyOr (a b : JVal) : JVal := if truthy a then a else b

/-- `d.get(k)` (returning `None` when absent is modelled by the caller). -/
def jGet (kvs : List (String × JVal)) (k : String) : Option JVal :=
  List.lookup k kvs

/-- `d.get(k, default)`. -/
def jGetD (kvs : List (String × JVal)) (k : String) (d : JVal) : JVal :=
  (jGet kvs k).getD d

/-- ASCII whitespace stripped by `str.strip()` (the embedded corpus is
ASCII). -/
def pyIsSpace (c : Char) : Bool :=
  [' ', '\t', '\n', '\r', '\x0b', '\x0c'].contains c

/-- `str.strip()`. -/
def pyStrip (s : String) : String :=
  String.mk (((s.data.dropWhile pyIsSpace).reverse.dropWhile pyIsSpace).reverse)

/-- ASCII `str.lower()`. -/
def pyCharLower (c : Char) : Char :=
  if 'A' ≤ c && c ≤ 'Z' then Char.ofNat (c.toNat + 32) else c

/-- `str.lower()` (ASCII; the tags it is applied to are ASCII). -/
def pyLower (s : String) : String := String.mk (s.data.map pyCharLower)

/-- Python `repr` of a string character inside quotes. -/
def pyReprChar (q c : Char) : List Char :=
  if c == '\\' then ['\\', '\\']
  else if c == q then ['\\', q]
  else if c == '\n' then ['\\', 'n']
  else if c == '\r' then ['\\', 'r']
  else if c == '\t' then ['\\', 't']
  else [c]

/-- Python `repr` of a string: single quotes unless the text contains a
single quote and no double quote. -/
def pyReprStr (s : String) : String :=
  let q := if s.data.contains '\x27' && !s.data.contains '"' then '"' else '\x27'
  String.mk (q :: s.data.flatMap (pyReprChar q) ++ [q])

mutual

/-- Python `repr` of a JSON-shaped value (as produced by `json.loads`). -/
def pyRepr : JVal → String
  | .null => "None"
  | .bool true => "True"
  | .bool false => "False"
  | .num n => toString n
  | .flt lit => lit
  | .str s => pyReprStr s
  | .arr xs => String.mk ('[' :: (pyReprList xs).data ++ [']'])
  | .obj kvs => String.mk ('\x7b' :: (pyReprObj kvs).data ++ ['\x7d'])

/-- Comma-joined `repr`s of list elements. -/
def pyReprList : List JVal → String
  | [] => ""
  | [x] => pyRepr x
  | x :: y :: xs => pyRepr x ++ ", " ++ pyReprList (y :: xs)

/-- Comma-joined `repr`s of dict items. -/
def pyReprObj : List (String × JVal) → String
  | [] => ""
  | [p] => pyReprStr p.1 ++ ": " ++ pyRepr p.2
  | p :: q :: ps => pyReprStr p.1 ++ ": " ++ pyRepr p.2 ++ ", " ++ pyReprObj (q :: ps)

end

/-- Python `str()` of a JSON-shaped value. -/
def pyStr : JVal → String
  | .str s => s
  | v => pyRepr v

/-! ### A JSON parser (`json.loads`) -/

/-- Skip JSON whitespace. -/
def skipWs (cs : List Char) : List Char :=
  match cs with
  | c :: rest => if [' ', '\t', '\n', '\r'].contains c then skipWs rest else c :: rest
  | [] => []

/-- The value of one hex digit. -/
def hexDigitVal (c : Char) : Option Nat :=
  let n := c.toNat
  if 48 ≤ n && n ≤ 57 then some (n - 48)
  else if 97 ≤ n && n ≤ 102 then some (n - 87)
  else if 65 ≤ n && n ≤ 70 then some (n - 55)
  else none

/-- Parse the remainder of a JSON string literal (after the opening quote),
returning the decoded characters and the input after the closing quote. -/
def parseStrChars : Nat → List Char → Option (List Char × List Char)
  | 0, _ => none
  | fuel + 1, cs =>
    match cs with
    | [] => none
    | '"' :: rest => some ([], rest)
    | '\\' :: e :: rest =>
      let push (c : Char) (r : List Char) : Option (List Char × List Char) :=
        (parseStrChars fuel r).map (fun p => (c :: p.1, p.2))
      match e with
      | '"' => push '"' rest
      | '\\' => push '\\' rest
      | '/' => push '/' rest
      | 'b' => push '\x08' rest
      | 'f' => push '\x0c' rest
      | 'n' => push '\n' rest
      | 'r' => push '\r' rest
      | 't' => push '\t' rest
      | 'u' =>
        match rest with
        | h1 :: h2 :: h3 :: h4 :: r2 =>
          match hexDigitVal h1, hexDigitVal h2, hexDigitVal h3, hexDigitVal h4 with
          | some a, some b, some c, some d =>
            push (Char.ofNat (((a * 16 + b) * 16 + c) * 16 + d)) r2
          | _, _, _, _ => none
        | _ => none
      | _ => none
    | c :: rest => if c.toNat < 32 then none else
        (parseStrChars fuel rest).map (fun p => (c :: p.1, p.2))

def digitsToNat (ds : List Char) : Nat :=
  ds.foldl (fun acc c => 10 * acc + (c.toNat - 48)) 0

/-- Parse a JSON integer literal (floats are outside this model). -/
def parseIntLit (cs : List Char) : Option (Int × List Char) :=
  let (neg, cs') := match cs with
    | '-' :: r => (true, r)
    | _ => (false, cs)
  let ds := cs'.takeWhile Char.isDigit
  let rest := cs'.dropWhile Char.isDigit
  if ds.isEmpty then none
  else if ds.length > 1 && ds.headD '0' == '0' then none
  else
    match rest with
    | '.' :: _ => none
    | 'e' :: _ => none
    | 'E' :: _ => none
    | _ =>
      let n : Int := Int.ofNat (digitsToNat ds)
      some (if neg then -n else n, rest)

/-- Python dict construction from parsed members: first-insert position,
last value wins. -/
def setPair (acc : List (String × JVal)) (k : String) (v : JVal) : List (String × JVal) :=
  if (List.lookup k acc).isSome then
    acc.map (fun p => if p.1 == k then (p.1, v) else p)
  else acc ++ [(k, v)]

def dictFromPairs (ms : List (String × JVal)) : List (String × JVal) :=
  ms.foldl (fun acc p => setPair acc p.1 p.2) []

mutual

/-- Parse one JSON value. -/
def parseVal : Nat → List Char → Option (JVal × List Char)
  | 0, _ => none
  | fuel + 1, cs =>
    let cs := skipWs cs
    if cs.take 4 == "null".data then some (.null, cs.drop 4)
    else if cs.take 4 == "true".data then some (.bool true, cs.drop 4)
    else if cs.take 5 == "false".data then some (.bool false, cs.drop 5)
    else
      match cs with
      | '"' :: rest =>
        (parseStrChars (fuel + 1) rest).map (fun p => (.str (String.mk p.1), p.2))
      | '[' :: rest =>
        match skipWs rest with
        | ']' :: r2 => some (.arr [], r2)
        | r2 => (parseElems fuel r2).map (fun p => (.arr p.1, p.2))
      | '\x7b' :: rest =>
        match skipWs rest with
        | '\x7d' :: r2 => some (.obj [], r2)
        | r2 => (parseMembers fuel r2).map (fun p => (.obj (dictFromPairs p.1), p.2))
      | _ => (parseIntLit cs).map (fun p => (.num p.1, p.2))

/-- Parse the elements of a (non-empty) JSON array up to `]`. -/
def parseElems : Nat → List Char → Option (List JVal × List Char)
  | 0, _ => none
  | fuel + 1, cs =>
    (parseVal fuel cs).bind (fun p =>
      match skipWs p.2 with
      | ',' :: r2 => (parseElems fuel r2).map (fun q => (p.1 :: q.1, q.2))
      | ']' :: r2 => some ([p.1], r2)
      | _ => none)

/-- Parse the members of a (non-empty) JSON object up to the closing brace. -/
def parseMembers : Nat → List Char → Option (List (String × JVal) × List Char)
  | 0, _ => none
  | fuel + 1, cs =>
    match skipWs cs with
    | '"' :: rest =>
      (parseStrChars (fuel + 1) rest).bind (fun kp =>
        match skipWs kp.2 with
        | ':' :: r2 =>
          (parseVal fuel r2).bind (fun vp =>
            match skipWs vp.2 with
            | ',' :: r4 =>
              (parseMembers fuel r4).map (fun q =>
                ((String.mk kp.1, vp.1) :: q.1, q.2))
            | '\x7d' :: r4 => some ([(String.mk kp.1, vp.1)], r4)
            | _ => none)
        | _ => none)
    | _ => none

end

/-- `json.loads` on a character list: one value, then only whitespace. -/
def jsonLoadsL (cs : List Char) : Option JVal :=
  match parseVal (4 * cs.length + 16) cs with
  | some (v, rest) => if (skipWs rest).isEmpty then some v else none
  | none => none

/-- `json.loads`. -/
def jsonLoads (s : String) : Option JVal := jsonLoadsL s.data

/-- Index of the first occurrence of `c`, as `str.find`. -/
def firstIdx (l : List Char) (c : Char) : Option Nat :=
  match l.findIdx? (fun x => x == c) with
  | some i => some i
  | none => none

/-- Index of the last occurrence of `c`, as `str.rfind`. -/
def lastIdx (l : List Char) (c : Char) : Option Nat :=
  match (l.reverse.findIdx? (fun x => x == c)) with
  | some i => some (l.length - 1 - i)
  | none => none

/-- `_extract_json` of `providers/local_ollama.py` lines 125–139 (the
Anthropic client carries an identical copy): slice from the first brace to
the last brace and `json.loads` the slice; anything else is `None`. -/
def extractJson (s : String) : Option JVal :=
  if s.data.isEmpty then none
  else
    match firstIdx s.data '\x7b', lastIdx s.data '\x7d' with
    | some first, some last =>
      if last ≤ first then none
      else jsonLoadsL ((s.data.drop first).take (last + 1 - first))
    | _, _ => none

/-! ### The plan shapes -/

/-- A cleaned suggestion of `_shape_plan`. -/
structure Action where
  cmd : String
  reason : String
  noise : String
  safety : String
deriving DecidableEq, Repr

/-- The canonical plan shape produced by `_shape_plan`. -/
structure PlanS where
  next_actions : List Action
  notes : List String
  escalation_paths : List String
deriving DecidableEq, Repr

/-- `_sanitize` of `providers/local_ollama.py` lines 41–44:
`str(s).replace("[", "(").replace("]", ")").strip()`. -/
def pySanitize (v : JVal) : String :=
  pyStrip (String.mk ((pyStr v).data.map
    (fun c => if c == '[' then '(' else if c == ']' then ')' else c)))

/-- The per-entry coercion of `_shape_plan` (lines 163–170): defaults
`noise="low"` and `safety="read-only"` for absent/falsy values, sanitizes
and lowercases. -/
def cleanAction (kvs : List (String × JVal)) : Action :=
  ⟨pySanitize (jGetD kvs "cmd" (.str "")),
   pySanitize (jGetD kvs "reason" (.str "")),
   pyLower (pySanitize (pyOr (jGetD kvs "noise" (.str "")) (.str "low"))),
   pyLower (pySanitize (pyOr (jGetD kvs "safety" (.str "")) (.str "read-only")))⟩

/-- The `next_actions` block of `_shape_plan` (lines 157–171): accept
`next_actions` or the `actions` alias, keep only dict entries, clean each,
and drop entries whose cleaned command is empty. -/
def shapeActions (kvs : List (String × JVal)) : List Action :=
  match pyOr (pyOr (jGetD kvs "next_actions" .null) (jGetD kvs "actions" .null)) (.arr []) with
  | .arr xs =>
    (xs.filterMap (fun a =>
      match a with
      | .obj m => some (cleanAction m)
      | _ => none)).filter (fun a => !a.cmd.data.isEmpty)
  | _ => []

/-- The `notes`/`escalation_paths` block of `_shape_plan` (lines 173–183):
a list keeps its truthy members sanitized, a string becomes a singleton. -/
def shapeStrList (v : JVal) : List String :=
  match pyOr v (.arr []) with
  | .arr xs => xs.filterMap (fun n => if truthy n then some (pySanitize n) else none)
  | .str s => [pySanitize (.str s)]
  | _ => []

/-- `_shape_plan` of `providers/local_ollama.py` lines 142–185. -/
def shapePlan (v : JVal) : PlanS :=
  match v with
  | .obj kvs =>
    ⟨shapeActions kvs,
     shapeStrList (jGetD kvs "notes" .null),
     shapeStrList (jGetD kvs "escalation_paths" .null)⟩
  | _ => ⟨[], [], []⟩

/-- The plan dict built by `run_agent`'s `_coerce_plan` (raw values, before
any display formatting). -/
structure PlanJ where
  next_actions : List JVal
  notes : List JVal
  escalation_paths : List JVal
deriving Repr

/-- Python `list(x)`: copies a list, explodes a string into characters,
lists a dict's keys; anything else raises `TypeError` (`none`). -/
def pyListOf : JVal → Option (List JVal)
  | .arr xs => some xs
  | .str s => some (s.data.map (fun c => .str (String.mk [c])))
  | .obj kvs => some (kvs.map (fun p => .str p.1))
  | _ => none

/-- `_coerce_plan` of `agent/agent.py` lines 68–83.  `none` models an
uncaught `TypeError` from `list(...)`. -/
def coercePlan (obj : JVal) : Option PlanJ :=
  match obj with
  | .obj kvs =>
    (pyListOf (jGetD kvs "next_actions" (.arr []))).bind (fun na =>
      (pyListOf (jGetD kvs "notes" (.arr []))).bind (fun no =>
        (pyListOf (jGetD kvs "escalation_paths" (.arr []))).map (fun ep =>
          ⟨na, no, ep⟩)))
  | .str s =>
    if (pyStrip s).data.isEmpty then some ⟨[], [.str "empty_model_response"], []⟩
    else some ⟨[], [.str (pyStrip s)], []⟩
  | _ => some ⟨[], [.str "empty_model_response"], []⟩

/-! ## Topic derivation (`agent/agent.py` lines 157–169) -/

/-- `facts.get(k, {})` followed by attribute access on the result: a
missing key defaults to the empty dict, a dict is returned, and a list
value would raise `AttributeError` (`none`). -/
def catLookup (fs : FactSet) (k : String) : Option (List (String × List FAtom)) :=
  match List.lookup k fs with
  | none => some []
  | some (.node m) => some m
  | some (.leaf _) => none

/-- Truthiness of `sub.get(sk)`. -/
def subTruthy (m : List (String × List FAtom)) (sk : String) : Bool :=
  match List.lookup sk m with
  | some l => !l.isEmpty
  | none => false

/-- The topic-derivation block of `run_agent`, in Python's evaluation
order: `entities` is read first, `artifacts` only when `entities.ips` is
falsy (short-circuit `or`), then `vulns` and `creds`; every firing rule
appends its label, and "General" is appended exactly when none fired. -/
def deriveTopics (fs : FactSet) : Option (List String) := do
  let ents ← catLookup fs "entities"
  let web := subTruthy ents "urls" || subTruthy ents "domains"
  let net ←
    if subTruthy ents "ips" then pure true
    else do
      let arts ← catLookup fs "artifacts"
      pure (subTruthy arts "ports")
  let vulns ← catLookup fs "vulns"
  let vul := subTruthy vulns "cves"
  let creds ← catLookup fs "creds"
  let cred := subTruthy creds "pairs" || subTruthy creds "passwords"
  let topics :=
    (if web then ["Web"] else []) ++ (if net then ["Network"] else []) ++
      (if vul then ["Vulnerabilities"] else []) ++ (if cred then ["Credentials"] else [])
  pure (if topics.isEmpty then ["General"] else topics)

/-- `topics[:3]`, the slice that feeds retrieval (line 172). -/
def topicsForRetrieval (fs : FactSet) : Option (List String) :=
  (deriveTopics fs).map (List.take 3)

/-- The labels appended by the four rules, in the fixed evaluation order. -/
def topicList (w n v c : Bool) : List String :=
  (if w then ["Web"] else []) ++ (if n then ["Network"] else []) ++
    (if v then ["Vulnerabilities"] else []) ++ (if c then ["Credentials"] else [])

/-- The rule cascade's result with the "General" fallback. -/
def topicResult (w n v c : Bool) : List String :=
  if (topicList w n v c).isEmpty then ["General"] else topicList w n v c

/-- Concrete `entities` category with a non-empty `urls` leaf. -/
def wEntsWeb : List (String × List FAtom) :=
  [("ips", []), ("ipv6", []), ("urls", [FAtom.s "http://t.example"]),
   ("domains", []), ("emails", [])]

/-- Concrete `artifacts` category with one captured port. -/
def wArtsWeb : List (String × List FAtom) :=
  [("ports", [FAtom.n 80]), ("services", []), ("files", []), ("banners", [])]

/-- Concrete empty `vulns` category. -/
def wVulnsWeb : List (String × List FAtom) := [("cves", [])]

/-- Concrete empty `creds` category. -/
def wCredsWeb : List (String × List FAtom) :=
  [("usernames", []), ("passwords", []), ("pairs", [])]

/-- Concrete fact set with a non-empty `entities.urls` leaf. -/
def wFactsWeb : FactSet :=
  [("entities", .node wEntsWeb),
   ("artifacts", .node wArtsWeb),
   ("vulns", .node wVulnsWeb),
   ("creds", .node wCredsWeb),
   ("errors", .leaf []),
   ("indicators", .leaf [])]

/-! ## Retrieval-store ingestion (`rag/retriever.py`)

`ingest_html` parses an HTML export with BeautifulSoup (an external
collaborator) into an ordered chunk list; the persisted identity is decided
by `chunkId` (SHA-1 of `"{path}:{i}:{title}"`) and the upsert on the base
table keyed by id.  The chunk list is therefore the ingestion input here. -/

/-- UTF-8 encoding of a string (Python `str.encode("utf-8")`). -/
def utf8Bytes (s : String) : List Nat :=
  s.data.flatMap (fun c =>
    let n := c.toNat
    if n < 128 then [n]
    else if n < 2048 then [192 ||| (n >>> 6), 128 ||| (n &&& 63)]
    else if n < 65536 then
      [224 ||| (n >>> 12), 128 ||| ((n >>> 6) &&& 63), 128 ||| (n &&& 63)]
    else
      [240 ||| (n >>> 18), 128 ||| ((n >>> 12) &&& 63),
       128 ||| ((n >>> 6) &&& 63), 128 ||| (n &&& 63)])

/-- 32-bit left rotation. -/
def rotl32 (k x : Nat) : Nat := ((x <<< k) ||| (x >>> (32 - k))) % 4294967296

/-- SHA-1 message padding: `0x80`, zeros to 56 mod 64, 8-byte big-endian
bit length. -/
def sha1Pad (msg : List Nat) : List Nat :=
  let bitLen := msg.length * 8
  let z := (119 - msg.length % 64) % 64
  msg ++ [128] ++ List.replicate z 0 ++
    [(bitLen >>> 56) &&& 255, (bitLen >>> 48) &&& 255, (bitLen >>> 40) &&& 255,
     (bitLen >>> 32) &&& 255, (bitLen >>> 24) &&& 255, (bitLen >>> 16) &&& 255,
     (bitLen >>> 8) &&& 255, bitLen &&& 255]

/-- Split into 64-byte blocks (fuel-structural for kernel reducibility). -/
def chunksOf64 : Nat → List Nat → List (List Nat)
  | 0, _ => []
  | _, [] => []
  | fuel + 1, l => l.take 64 :: chunksOf64 fuel (l.drop 64)

/-- Big-endian 32-bit words of a block. -/
def toWords : List Nat → List Nat
  | b0 :: b1 :: b2 :: b3 :: rest =>
    (((b0 * 256 + b1) * 256 + b2) * 256 + b3) :: toWords rest
  | _ => []

/-- SHA-1 message-schedule expansion from 16 to 80 words. -/
def sha1Expand (ws : List Nat) : List Nat :=
  (List.range 64).foldl (fun acc _ =>
    let n := acc.length
    acc ++ [rotl32 1 (acc.getD (n - 3) 0 ^^^ acc.getD (n - 8) 0 ^^^
      acc.getD (n - 14) 0 ^^^ acc.getD (n - 16) 0)]) ws

/-- One SHA-1 block compression. -/
def sha1Compress (h : Nat × Nat × Nat × Nat × Nat) (block : List Nat) :
    Nat × Nat × Nat × Nat × Nat :=
  let w := sha1Expand (toWords block)
  let st := (List.range 80).foldl (fun st i =>
    let a := st.1
    let b := st.2.1
    let c := st.2.2.1
    let d := st.2.2.2.1
    let e := st.2.2.2.2
    let f :=
      if i < 20 then (b &&& c) ||| ((4294967295 ^^^ b) &&& d)
      else if i < 40 then b ^^^ c ^^^ d
      else if i < 60 then (b &&& c) ||| (b &&& d) ||| (c &&& d)
      else b ^^^ c ^^^ d
    let k :=
      if i < 20 then 1518500249
      else if i < 40 then 1859775393
      else if i < 60 then 2400959708
      else 3395469782
    let temp := (rotl32 5 a + f + e + k + w.getD i 0) % 4294967296
    (temp, a, rotl32 30 b, c, d)) h
  ((h.1 + st.1) % 4294967296, (h.2.1 + st.2.1) % 4294967296,
   (h.2.2.1 + st.2.2.1) % 4294967296, (h.2.2.2.1 + st.2.2.2.1) % 4294967296,
   (h.2.2.2.2 + st.2.2.2.2) % 4294967296)

def hexDigit (n : Nat) : Char :=
  if n < 10 then Char.ofNat (48 + n) else Char.ofNat (87 + n)

def hex8 (x : Nat) : List Char :=
  (List.range 8).map (fun i => hexDigit ((x >>> ((7 - i) * 4)) &&& 15))

/-- `hashlib.sha1(bytes).hexdigest()`. -/
def sha1Hex (msg : List Nat) : String :=
  let blocks := chunksOf64 (msg.length + 73) (sha1Pad msg)
  let h := blocks.foldl sha1Compress
    (1732584193, 4023233417, 2562383102, 271733878, 3285377520)
  String.mk (hex8 h.1 ++ hex8 h.2.1 ++ hex8 h.2.2.1 ++ hex8 h.2.2.2.1 ++ hex8 h.2.2.2.2)

/-- The stable chunk id of `ingest_html` line 138:
`hashlib.sha1(f"{path}:{i}:{title}".encode("utf-8")).hexdigest()`. -/
def chunkId (path : String) (i : Nat) (title : String) : String :=
  sha1Hex (utf8Bytes (path ++ ":" ++ toString i ++ ":" ++ title))

/-- A row of the `chunks` base table. -/
structure ChunkRow where
  id : String
  title : String
  text : String
  tags : String
deriving DecidableEq, Repr

/-- The `chunks` base table (the FTS mirror carries the same rowids). -/
abbrev Store := List ChunkRow

/-- `_upsert_chunk` of `rag/retriever.py` lines 47–69 on the base table:
`INSERT ... ON CONFLICT(id) DO UPDATE` updates the conflicting row in place
or appends a new row. -/
def upsertChunk (s : Store) (cid title text tags : String) : Store :=
  if s.any (fun r => r.id == cid) then
    s.map (fun r => if r.id == cid then ⟨cid, title, text, tags⟩ else r)
  else s ++ [⟨cid, title, text, tags⟩]

/-- A chunk as produced by `_chunk_html`. -/
structure ParsedChunk where
  title : String
  text : String
  tags : String
deriving Repr

/-- Python `s.split(",")`. -/
def splitOnComma (l : List Char) : List (List Char) :=
  l.foldr (fun c acc =>
    if c == ',' then [] :: acc
    else match acc with
      | h :: t => (c :: h) :: t
      | [] => [[c]]) [[]]

/-- The `tags_csv` expression of `ingest_html` line 137. -/
def tagsCsv (tags : String) : String :=
  let src := if tags.data.isEmpty then "General" else tags
  let parts := ((splitOnComma src.data).map (fun p => pyStrip (String.mk p))).filter
    (fun t => !t.data.isEmpty)
  if parts.isEmpty then "General"
  else String.mk (List.intercalate [','] (parts.map String.data))

/-- The ingestion loop of `ingest_html` lines 133–141: enumerate chunks,
compute each stable id, upsert, and count. -/
def ingestGo (path : String) : Store × Nat → Nat → List ParsedChunk → Store × Nat
  | acc, _, [] => acc
  | acc, i, ch :: rest =>
    ingestGo path
      (upsertChunk acc.1 (chunkId path i ch.title) ch.title ch.text (tagsCsv ch.tags),
       acc.2 + 1)
      (i + 1) rest

/-- `ingest_html` of `rag/retriever.py` lines 119–144, over the parsed
chunk list: the updated store and the returned count. -/
def ingestHtml (store : Store) (path : String) (chunks : List ParsedChunk) :
    Store × Nat :=
  ingestGo path (store, 0) 0 chunks

/-- The ids assigned by one ingestion pass starting at index `i`. -/
def ingestIdsFrom (path : String) (i : Nat) : List ParsedChunk → List String
  | [] => []
  | ch :: rest => chunkId path i ch.title :: ingestIdsFrom path (i + 1) rest

/-- The ids assigned by `ingest_html`. -/
def ingestIds (path : String) (chunks : List ParsedChunk) : List String :=
  ingestIdsFrom path 0 chunks

/-- The id column of the store. -/
def storeIds (s : Store) : List String := s.map ChunkRow.id

/-- Concrete chunk list. -/
def wChunks1 : List ParsedChunk :=
  [⟨"Recon", "run the scans", "Recon"⟩, ⟨"Web", "enumerate vhosts", "Web"⟩]

/-- The same titles with changed bodies and tags. -/
def wChunks2 : List ParsedChunk :=
  [⟨"Recon", "fully rewritten text", "Other"⟩, ⟨"Web", "new advice", "Web,Misc"⟩]

/-! ## Redaction (`utils/redact.py`) -/

/-- `re.sub` with a fixed replacement: scan, replace each leftmost match,
resume after it (an empty match is replaced and the next character kept). -/
def subAll : Nat → RE → List Char → Option Char → List Char → List Char
  | 0, _, _, _, s => s
  | fuel + 1, r, repl, prev, s =>
    match s with
    | [] =>
      match matchHere r prev [] with
      | some _ => repl
      | none => []
    | c :: cs =>
      match matchHere r prev (c :: cs) with
      | some q =>
        if q.2.length < (c :: cs).length then
          repl ++ subAll fuel r repl q.1 q.2
        else
          repl ++ c :: subAll fuel r repl (some c) cs
      | none => c :: subAll fuel r repl (some c) cs

/-- `pattern.sub(replacement, s)`. -/
def reSub (r : RE) (repl : String) (s : String) : String :=
  String.mk (subAll (s.data.length + 1) r repl.data none s.data)

/-- Flatten a regex sequence. -/
def reSeq (rs : List RE) : RE := rs.foldr RE.seq .eps

/-- `\s*` over Python ASCII whitespace. -/
def reWs0 : RE := .rep (.cls pyIsSpace) 0 none false

/-- `["']?`. -/
def reQuoteOpt : RE := reOpt (.cls (fun c => c == '"' || c == '\x27'))

/-- `[:=]`. -/
def reColonEq : RE := .cls (fun c => c == ':' || c == '=')

/-- Pattern 1 of `_PATTERNS`:
`(?i)\bapi[_-]?key\s*[:=]\s*["']?([A-Za-z0-9._\-]{12,})["']?`. -/
def RE_API_KEY : RE :=
  reSeq [.wb, reStrCI "api".data, reOpt (.cls (fun c => c == '_' || c == '-')),
    reStrCI "key".data, reWs0, reColonEq, reWs0, reQuoteOpt,
    .rep (.cls (fun c => c.isAlphanum || c == '.' || c == '_' || c == '-')) 12 none false,
    reQuoteOpt]

/-- Pattern 2: `(?i)\bsecret[_-]?key\s*[:=]\s*["']?([^"']{8,})["']?`. -/
def RE_SECRET : RE :=
  reSeq [.wb, reStrCI "secret".data, reOpt (.cls (fun c => c == '_' || c == '-')),
    reStrCI "key".data, reWs0, reColonEq, reWs0, reQuoteOpt,
    .rep (.cls (fun c => !(c == '"' || c == '\x27'))) 8 none false, reQuoteOpt]

/-- Pattern 3: `(?i)\bpassword\s*[:=]\s*["']?([^"']{4,})["']?`. -/
def RE_PASSWORD : RE :=
  reSeq [.wb, reStrCI "password".data, reWs0, reColonEq, reWs0, reQuoteOpt,
    .rep (.cls (fun c => !(c == '"' || c == '\x27'))) 4 none false, reQuoteOpt]

/-- Pattern 4: `(?i)\bBearer\s+[A-Za-z0-9\-_\.=]+`. -/
def RE_TOKEN : RE :=
  reSeq [.wb, reStrCI "Bearer".data, .rep (.cls pyIsSpace) 1 none false,
    .rep (.cls (fun c => c.isAlphanum || c == '-' || c == '_' || c == '.' || c == '=')) 1 none false]

/-- Pattern 5: `\b[A-Za-z0-9_-]{10,}\.[A-Za-z0-9_-]{10,}\.[A-Za-z0-9_-]{10,}\b`. -/
def RE_JWT : RE :=
  reSeq [.wb, .rep (.cls (fun c => c.isAlphanum || c == '_' || c == '-')) 10 none false,
    reChar '.', .rep (.cls (fun c => c.isAlphanum || c == '_' || c == '-')) 10 none false,
    reChar '.', .rep (.cls (fun c => c.isAlphanum || c == '_' || c == '-')) 10 none false, .wb]

/-- `\d{1,3}`. -/
def reD13 : RE := .rep reDigit 1 (some 3) false

/-- Pattern 6:
`\b(?:10\.(?:\d{1,3}\.){2}\d{1,3}|192\.168\.(?:\d{1,3}\.)\d{1,3}|172\.(?:1[6-9]|2\d|3[0-1])\.(?:\d{1,3}\.)\d{1,3})\b`. -/
def RE_IP_PRIV : RE :=
  reSeq [.wb,
    .alt (reSeq [reStr "10.".data, .rep (reSeq [reD13, reChar '.']) 2 (some 2) false, reD13])
      (.alt (reSeq [reStr "192.168.".data, reD13, reChar '.', reD13])
        (reSeq [reStr "172.".data,
          .alt (reSeq [reChar '1', reRange '6' '9'])
            (.alt (reSeq [reChar '2', reDigit]) (reSeq [reChar '3', reRange '0' '1'])),
          reChar '.', reD13, reChar '.', reD13])),
    .wb]

/-- `_PATTERNS` of `utils/redact.py` lines 5–12, in order. -/
def redactPatterns : List (RE × String) :=
  [(RE_API_KEY, "<API_KEY>"), (RE_SECRET, "<SECRET>"), (RE_PASSWORD, "<PASSWORD>"),
   (RE_TOKEN, "<TOKEN>"), (RE_JWT, "<JWT>"), (RE_IP_PRIV, "<IP_PRIV>")]

/-- `_redact_text` of `utils/redact.py` lines 14–18. -/
def redactText (s : String) : String :=
  redactPatterns.foldl (fun out p => reSub p.1 p.2 out) s

mutual

/-- The `walk` of `redact` (lines 24–31): strings are redacted, containers
are walked, other scalars pass through. -/
def redactVal : JVal → JVal
  | .obj kvs => .obj (redactKvs kvs)
  | .arr xs => .arr (redactArr xs)
  | .str s => .str (redactText s)
  | v => v

def redactArr : List JVal → List JVal
  | [] => []
  | x :: xs => redactVal x :: redactArr xs

def redactKvs : List (String × JVal) → List (String × JVal)
  | [] => []
  | p :: rest => (p.1, redactVal p.2) :: redactKvs rest

end

/-- `redact` of `utils/redact.py` lines 20–32: the identity when cloud
egress is explicitly permitted. -/
def redact (payload : JVal) (allowCloud : Bool) : JVal :=
  if allowCloud then payload else redactVal payload

/-! ## Provider gateway (`providers/*.py`)

Each backend is embedded over an abstract transport (the network call),
per the input/output contract; request construction, redaction plumbing,
fallback logic and response decoding are translated from the source. -/

def jsonEscChar (c : Char) : List Char :=
  if c == '"' then ['\\', '"']
  else if c == '\\' then ['\\', '\\']
  else if c == '\n' then ['\\', 'n']
  else if c == '\t' then ['\\', 't']
  else if c == '\r' then ['\\', 'r']
  else if c == '\x08' then ['\\', 'b']
  else if c == '\x0c' then ['\\', 'f']
  else if c.toNat < 32 then
    '\\' :: 'u' :: '0' :: '0' :: [hexDigit (c.toNat / 16), hexDigit (c.toNat % 16)]
  else [c]

/-- JSON string quoting for `json.dumps`. -/
def jsonQuote (s : String) : String :=
  String.mk ('"' :: s.data.flatMap jsonEscChar ++ ['"'])

mutual

/-- `json.dumps` with default separators (non-ASCII characters pass
through; the embedded corpus is ASCII, where `ensure_ascii` is moot). -/
def jsonDumps : JVal → String
  | .null => "null"
  | .bool true => "true"
  | .bool false => "false"
  | .num n => toString n
  | .flt lit => lit
  | .str s => jsonQuote s
  | .arr xs => String.mk ('[' :: (jsonDumpsList xs).data ++ [']'])
  | .obj kvs => String.mk ('\x7b' :: (jsonDumpsObj kvs).data ++ ['\x7d'])

def jsonDumpsList : List JVal → String
  | [] => ""
  | [x] => jsonDumps x
  | x :: y :: xs => jsonDumps x ++ ", " ++ jsonDumpsList (y :: xs)

def jsonDumpsObj : List (String × JVal) → String
  | [] => ""
  | [p] => jsonQuote p.1 ++ ": " ++ jsonDumps p.2
  | p :: q :: ps => jsonQuote p.1 ++ ": " ++ jsonDumps p.2 ++ ", " ++ jsonDumpsObj (q :: ps)

end

/-- Python slice `x[:n]` (lists and strings; other types raise). -/
def pySliceFirstN (v : JVal) (n : Nat) : Option JVal :=
  match v with
  | .arr xs => some (.arr (xs.take n))
  | .str s => some (.str (String.mk (s.data.take n)))
  | _ => none

/-- Python slice `x[-n:]`. -/
def pySliceLastN (v : JVal) (n : Nat) : Option JVal :=
  match v with
  | .arr xs => some (.arr (xs.drop (xs.length - n)))
  | .str s => some (.str (String.mk (s.data.drop (s.data.length - n))))
  | _ => none

/-- Substring search. -/
def containsSub : List Char → List Char → Bool
  | [], sub => sub.isEmpty
  | h :: t, sub => (h :: t).take sub.length == sub || containsSub t sub

/-- A plan dict carrying only notes (the providers' failure shape). -/
def planNotes (notes : List String) : JVal :=
  .obj [("next_actions", .arr []), ("notes", .arr (notes.map JVal.str)),
        ("escalation_paths", .arr [])]

/-! ### OpenAI client (`providers/openai_client.py`) -/

/-- `_want_responses_api` (lines 12–14). -/
def wantResponsesApi (model : String) : Bool :=
  let m := (pyLower model).data
  m.take 5 == "gpt-5".data || m.take 2 == "o5".data

/-- `_user_payload` (lines 32–42): the slim request payload (its
`json.dumps` wire form is a transport detail). -/
def userPayloadSlim (payload : JVal) : Option JVal :=
  match payload with
  | .obj kvs =>
    (pySliceLastN (jGetD kvs "recent_events" (.arr [])) 8).bind (fun re =>
      (pySliceFirstN (jGetD kvs "retrieved_snippets" (.arr [])) 4).map (fun rs =>
        .obj [("profile", (jGet kvs "profile").getD .null),
              ("last_cmd", (jGet kvs "last_cmd").getD .null),
              ("cwd", (jGet kvs "cwd").getD .null),
              ("exit", (jGet kvs "exit").getD .null),
              ("parsed_facts", (jGet kvs "parsed_facts").getD .null),
              ("recent_events", re),
              ("retrieved_snippets", rs)]))
  | _ => none

/-- The configured environment of the OpenAI client. -/
structure OpenAIEnv where
  apiKey : Option String
  fallbacks : Option String

/-- Parse the comma-separated `AIC_OPENAI_FALLBACKS` override (line 100). -/
def parseFallbacks (s : String) : List String :=
  ((splitOnComma s.data).map (fun p => pyStrip (String.mk p))).filter
    (fun m => !m.data.isEmpty)

/-- The default fallback chain (line 102). -/
def openaiDefaultChain : List String := ["gpt-4o-mini", "gpt-4o-mini-2024-07-18", "gpt-4o"]

/-- `models_to_try` (lines 96–102): the requested model, then the override
list when set and non-empty, else the default chain. -/
def modelsToTry (env : OpenAIEnv) (model : String) : List String :=
  model :: (match env.fallbacks with
    | some s => if s.data.isEmpty then openaiDefaultChain else parseFallbacks s
    | none => openaiDefaultChain)

/-- `_fallback_plan` (lines 52–53). -/
def fallbackPlanJ (msg : String) : JVal := planNotes [msg]

/-- The retry loop of `plan_with_openai` (lines 104–116): first success
short-circuits; an exception moves to the next identifier; an exhausted
chain reports the last error and the chain. -/
def tryChain (attempt : Bool → String → Except String JVal) (allTried : List String) :
    List String → Option String → JVal
  | [], lastErr =>
    fallbackPlanJ ("openai_error:" ++ (match lastErr with | some e => e | none => "None") ++
      "; model_chain_tried=" ++ pyRepr (.arr (allTried.map JVal.str)))
  | m :: rest, _ =>
    match attempt (wantResponsesApi m) m with
    | .ok p => p
    | .error e => tryChain attempt allTried rest (some e)

/-- `plan_with_openai` (lines 84–116) over an abstract per-model call
`attempt responsesApi model blob` (`_call_responses`/`_call_chat`; an
`Except.error` is a raised exception).  `none` models an exception escaping
the function itself. -/
def planWithOpenai (env : OpenAIEnv)
    (attempt : Bool → String → JVal → Except String JVal)
    (model : String) (payload : JVal) (allowCloud : Bool) : Option JVal :=
  if (match env.apiKey with | none => true | some k => k.data.isEmpty) then
    some (fallbackPlanJ "openai_error:missing_api_key")
  else
    let safe := redact payload allowCloud
    match userPayloadSlim safe with
    | none => none
    | some blob =>
      let chain := modelsToTry env model
      some (tryChain (fun api m => attempt api m blob) chain chain none)

/-! ### Anthropic client (`providers/anthropic_client.py`) -/

/-- The `TEMPLATE` of `utils/prompt.py` up to `{input_blob}`. -/
def anthTemplateA : String :=
  "You are SIDEcar, a penetration-testing copilot. You see a running shell session for a CTF event.\n" ++
  "You will propose concrete next steps based on:\n" ++
  "- the last command and exit code or output\n" ++
  "- entities extracted from recent stdout/stderr and files (IPs, URLs, ports, banners, CVEs, credentials, errors, etc.)\n" ++
  "- brief knowledge snippets provided\n" ++
  "\n" ++
  "STRICT OUTPUT: Return ONLY JSON matching this schema:\n" ++
  "\x7b\n" ++
  "  \"next_actions\":[\x7b\"cmd\":\"\", \"reason\":\"\", \"noise\":\"low|med|high\", \"safety\":\"read-only|intrusive|exploit\"\x7d],\n" ++
  "  \"notes\": [\"...\"],\n" ++
  "  \"escalation_paths\": [\"...\"]\n" ++
  "\x7d\n" ++
  "\n" ++
  "Guidelines:\n" ++
  "- NEVER auto-execute. All actions are suggestions.\n" ++
  "- Default to read-only reconnaissance when profile is \"prod-safe\".\n" ++
  "- Use the discovered entities and prior findings to chain meaningful follow-ups.\n" ++
  "- Keep noise low unless the profile is \"ctf\".\n" ++
  "- When credentials or CVEs are present, suggest safe validation or triage steps before exploitation.\n" ++
  "- Keep 3–6 next_actions max, ordered by value.\n" ++
  "- If there is an error (timeouts, refused, auth errors), suggest a specific troubleshooting step.\n" ++
  "\n" ++
  "INPUT:\n"

/-- `build_prompt` of `utils/prompt.py` lines 29–41: the compact input dict
serialized into the template.  `none` models an exception from a malformed
payload. -/
def buildPrompt (payload : JVal) : Option String :=
  match payload with
  | .obj kvs =>
    (pySliceFirstN (jGetD kvs "retrieved_snippets" (.arr [])) 3).bind (fun snips =>
      (pySliceLastN (jGetD kvs "recent_events" (.arr [])) 6).bind (fun recents =>
        ((match recents with
          | .arr es => es.mapM (fun e =>
              match e with
              | .obj m => some ((jGet m "cmd").getD .null)
              | _ => none)
          | _ => none : Option (List JVal))).map (fun recentCmds =>
          anthTemplateA ++
            jsonDumps (.obj
              [("profile", (jGet kvs "profile").getD .null),
               ("last_cmd", (jGet kvs "last_cmd").getD .null),
               ("exit", (jGet kvs "exit").getD .null),
               ("cwd", (jGet kvs "cwd").getD .null),
               ("facts", (jGet kvs "parsed_facts").getD .null),
               ("retrieved_snippets", snips),
               ("recent_cmds", .arr recentCmds)]) ++ "\n")))
  | _ => none

/-- Strip leading and trailing characters satisfying `p` (`str.strip(chars)`). -/
def stripChars (s : String) (p : Char → Bool) : String :=
  String.mk (((s.data.dropWhile p).reverse.dropWhile p).reverse)

/-- The model cleaning of `plan_with_anthropic` line 90:
`.strip().strip("'").strip('"')`. -/
def anthCleanModel (m : String) : String :=
  stripChars (stripChars (pyStrip m) (fun c => c == '\x27')) (fun c => c == '"')

/-- An HTTP response of the abstract transport. -/
structure HResp where
  status : Nat
  text : String
deriving Repr

/-- `_sanitize_for_markup` (lines 71–81): drop triple-backtick fences, then
replace square brackets with parentheses. -/
def sanitizeForMarkup (s : String) : String :=
  if s.data.isEmpty then ""
  else
    let bt : Char := Char.ofNat 96
    let noFences := reSub (reSeq [reChar bt, reChar bt, reChar bt,
      .rep (.cls (fun _ => true)) 0 none true,
      reChar bt, reChar bt, reChar bt]) "" s
    String.mk (noFences.data.map (fun c => if c == '[' then '(' else if c == ']' then ')' else c))

/-- The `_shape_plan` copy of `providers/anthropic_client.py` lines 34–68
(plain `str(...).strip()` cleaning, no lowercasing). -/
def shapePlanAnth (v : JVal) : PlanS :=
  match v with
  | .obj kvs =>
    let acts :=
      match pyOr (pyOr (jGetD kvs "next_actions" .null) (jGetD kvs "actions" .null)) (.arr []) with
      | .arr xs =>
        (xs.filterMap (fun a =>
          match a with
          | .obj m => some (⟨pyStrip (pyStr (jGetD m "cmd" (.str ""))),
              pyStrip (pyStr (jGetD m "reason" (.str ""))),
              pyStrip (pyStr (pyOr (jGetD m "noise" (.str "")) (.str "low"))),
              pyStrip (pyStr (pyOr (jGetD m "safety" (.str "")) (.str "read-only")))⟩ : Action)
          | _ => none)).filter (fun a => !a.cmd.data.isEmpty)
      | _ => []
    let notes :=
      match (jGet kvs "notes").getD .null with
      | .arr xs => xs.filterMap (fun n => if truthy n then some (pyStr n) else none)
      | .str s => [s]
      | _ => []
    let esc :=
      match (jGet kvs "escalation_paths").getD .null with
      | .arr xs => xs.filterMap (fun x => if truthy x then some (pyStr x) else none)
      | .str s => [s]
      | _ => []
    ⟨acts, notes, esc⟩
  | _ => ⟨[], [], []⟩

/-- A shaped plan as the dict the provider returns. -/
def planSToJVal (p : PlanS) : JVal :=
  .obj [("next_actions", .arr (p.next_actions.map (fun a =>
          .obj [("cmd", .str a.cmd), ("reason", .str a.reason),
                ("noise", .str a.noise), ("safety", .str a.safety)]))),
        ("notes", .arr (p.notes.map JVal.str)),
        ("escalation_paths", .arr (p.escalation_paths.map JVal.str))]

/-- The request body of `plan_with_anthropic` lines 100–105, built from
the redacted payload. -/
def anthropicRequest (model : String) (payload : JVal) (allowCloud : Bool) : Option JVal :=
  (buildPrompt (redact payload allowCloud)).map (fun prompt =>
    .obj [("model", .str model), ("max_tokens", .num 800),
          ("temperature", .flt "0.2"),
          ("messages", .arr [.obj [("role", .str "user"), ("content", .str prompt)]])])

/-- The text-block concatenation of `plan_with_anthropic` lines 120–126.
A non-string `text` member makes `"".join` raise (`none`, caught as
`anthropic_bad_json`). -/
def anthContentText (data : JVal) : Option String :=
  match data with
  | .obj kvs =>
    (match pyOr (jGetD kvs "content" .null) (.arr []) with
      | .arr blocks => blocks.foldr (fun b acc =>
          acc.bind (fun rest =>
            match b with
            | .obj m =>
              if (match jGet m "type" with | some (.str t) => t == "text" | _ => false) then
                match jGetD m "text" (.str "") with
                | .str t => some (t ++ rest)
                | _ => none
              else some rest
            | _ => some rest)) (some "")
      | _ => none)
  | _ => none

/-- `plan_with_anthropic` of `providers/anthropic_client.py` lines 84–142
over an abstract transport `post body` (an `Except.error` is a raised
request exception).  There is no fallback chain: one request is made with
the single configured model. -/
def planWithAnthropic (key : String) (envModel : String)
    (post : JVal → Except String HResp)
    (model : String) (payload : JVal) (allowCloud : Bool) : Option JVal :=
  if key.data.isEmpty then some (planNotes ["missing ANTHROPIC_API_KEY"])
  else
    let model := anthCleanModel (if !model.data.isEmpty then model else envModel)
    if model.data.isEmpty then some (planNotes ["anthropic_error:empty_model"])
    else
      match anthropicRequest model payload allowCloud with
      | none => none
      | some body =>
        match post body with
        | .error e => some (planNotes ["anthropic_request_error:" ++ e])
        | .ok r =>
          if 400 ≤ r.status then
            some (planNotes ["anthropic_error:" ++ toString r.status,
              sanitizeForMarkup (String.mk (r.text.data.take 200))])
          else
            match jsonLoads r.text with
            | none => some (planNotes ["anthropic_bad_json:<json_error>"])
            | some data =>
              match anthContentText data with
              | none => some (planNotes ["anthropic_bad_json:<json_error>"])
              | some text =>
                match extractJson text with
                | none => some (planNotes ["unparsable_llm_output",
                    String.mk ((sanitizeForMarkup text).data.take 300)])
                | some o =>
                  let plan := shapePlanAnth o
                  let plan : PlanS :=
                    if !plan.notes.isEmpty then
                      ⟨plan.next_actions, plan.notes.map sanitizeForMarkup,
                       plan.escalation_paths⟩
                    else plan
                  some (planSToJVal plan)

/-! ### Local Ollama client (`providers/local_ollama.py`) -/

/-- Python `for` iteration over a sliced value (list or string). -/
def iterElems : JVal → Option (List JVal)
  | .arr xs => some xs
  | .str s => some (s.data.map (fun c => .str (String.mk [c])))
  | _ => none

/-- `"\n".join`. -/
def joinNl (xs : List String) : String :=
  String.mk (List.intercalate ['\n'] (xs.map String.data))

/-- One snippet line of `_build_prompt` (lines 202–206); `none` is an
uncaught attribute/type error on a malformed snippet. -/
def snippetLine (s : JVal) : Option String :=
  match s with
  | .obj m =>
    (pySliceFirstN (jGetD m "title" (.str "")) 80).bind (fun tRaw =>
      match jGetD m "gist" (.str "") with
      | .str g => some ("- " ++ pyStr tRaw ++ ": " ++
          String.mk ((g.data.take 220).map (fun c => if c == '\n' then ' ' else c)))
      | _ => none)
  | _ => none

/-- One recent line of `_build_prompt` (lines 208–214); any error is
swallowed by the `except: continue` (`none` = skipped). -/
def recentLine (e : JVal) : Option String :=
  match e with
  | .obj m =>
    (pySliceFirstN (jGetD m "cmd" (.str "")) 140).map (fun cmdv =>
      "- rc=" ++ pyStr (jGetD m "exit" (.str "")) ++ " :: " ++ pyStr cmdv)
  | _ => none

/-- The fixed instruction text of `_build_prompt` (lines 217–236), up to
the interpolated context. -/
def ollamaTemplA : String :=
  "\nYou are a penetration testing copilot. Based ONLY on the context below,\n" ++
  "propose the next shell commands to run. Be concise and pragmatic.\n" ++
  "\n" ++
  "Output STRICT JSON with the following shape and NOTHING else:\n" ++
  "\n" ++
  "\x7b\n" ++
  "  \"next_actions\": [\x7b\"cmd\": \"...\", \"reason\": \"...\", \"noise\": \"low|med|high\", \"safety\": \"read-only|intrusive|exploit\"\x7d],\n" ++
  "  \"notes\": [\"...\"],\n" ++
  "  \"escalation_paths\": [\"...\"]\n" ++
  "\x7d\n" ++
  "\n" ++
  "Guidelines:\n" ++
  "- Prefer low-noise, read-only enumeration first.\n" ++
  "- Use context from previous commands, artifacts, and retrieved notes.\n" ++
  "- Do not invent targets or credentials; rely on provided facts.\n" ++
  "- If no stdout/stderr was captured, suggest re-running via the capture wrapper.\n" ++
  "- Keep \x27cmd\x27 runnable as-is in a typical Kali shell.\n" ++
  "\n" ++
  "Context:\n" ++
  "- cwd: "

/-- `_build_prompt` of `providers/local_ollama.py` lines 188–250, built
from the raw (never redacted) payload. -/
def buildOllamaPrompt (payload : JVal) : Option String :=
  match payload with
  | .obj kvs =>
    let lastCmd := pyOr (jGetD kvs "last_cmd" .null) (.str "")
    let cwd := pyOr (jGetD kvs "cwd" .null) (.str "")
    let exitCode := (jGet kvs "exit").getD .null
    let facts := pyOr (jGetD kvs "parsed_facts" .null) (.obj [])
    let snippets := pyOr (jGetD kvs "retrieved_snippets" .null) (.arr [])
    let recent := pyOr (jGetD kvs "recent_events" .null) (.arr [])
    (pySliceFirstN snippets 4).bind (fun snips =>
      (iterElems snips).bind (fun selems =>
        (selems.mapM snippetLine).bind (fun snippetLines =>
          (pySliceLastN recent 6).bind (fun recents =>
            (iterElems recents).map (fun relems =>
              let recentLines := relems.filterMap recentLine
              pyStrip (ollamaTemplA ++ pyStr cwd ++
                "\n- last_cmd: " ++ pyStr lastCmd ++
                "\n- last_exit: " ++ pyStr exitCode ++
                "\n\nFacts (parsed):\n" ++ String.mk ((jsonDumps facts).data.take 1600) ++
                "\n\nRecent:\n" ++ joinNl recentLines ++
                "\n\nMethodology notes:\n" ++ joinNl snippetLines ++ "\n"))))))
  | _ => none

/-- `_clean_tag` (lines 34–38): `.strip().strip('"').strip("'")`. -/
def ollamaCleanTag (m : String) : String :=
  stripChars (stripChars (pyStrip m) (fun c => c == '"')) (fun c => c == '\x27')

/-- The effectful collaborators of `plan_with_ollama`: server liveness,
the tag listing, the two possible pull attempts and the two possible
`/api/generate` calls (the retry may see different server state). -/
structure OllamaEff where
  ensureServer : Option String
  installed : List String
  pull1 : Option String
  generate1 : String → String → Except String HResp
  pull2 : Option String
  generate2 : String → String → Except String HResp

/-- The `err_text` recovery of `plan_with_ollama` (lines 308–313 and
328–332): re-serialize the error body when it parses, else the raw text. -/
def errTextOf (r : HResp) : String :=
  match jsonLoads r.text with
  | some j => jsonDumps j
  | none => r.text

/-- The response-parsing tail of `plan_with_ollama` (lines 341–359). -/
def ollamaParse (notes : List String) (r : HResp) : Option JVal :=
  match jsonLoads r.text with
  | none => some (planNotes (notes ++ ["ollama_bad_json:<json_error>"]))
  | some data =>
    match data with
    | .obj kvs =>
      match pyOr (jGetD kvs "response" (.str "")) (.str "") with
      | .str s =>
        match extractJson s with
        | none => some (planNotes (notes ++ ["parse_error:response_not_json",
            pySanitize (.str (String.mk (s.data.take 240)))]))
        | some o =>
          let plan := shapePlan o
          let plan : PlanS :=
            if !notes.isEmpty then
              ⟨plan.next_actions, plan.notes ++ notes, plan.escalation_paths⟩
            else plan
          some (planSToJVal plan)
      | _ => none
    | _ => some (planNotes (notes ++ ["ollama_bad_json:<json_error>"]))

/-- The not-ok handling of `plan_with_ollama` (lines 306–339), including
the one pull-and-retry on a 400 "invalid model name". -/
def ollamaNotOk (eff : OllamaEff) (model prompt : String) (notes : List String)
    (r : HResp) : Option JVal :=
  let errText := errTextOf r
  if r.status == 400 && containsSub (pyLower errText).data "invalid model name".data then
    match eff.pull2 with
    | some pullErr => some (planNotes (notes ++ [pullErr]))
    | none =>
      match eff.generate2 model prompt with
      | .error e => some (planNotes (notes ++ ["ollama_request_error:" ++ e]))
      | .ok r2 =>
        if 400 ≤ r2.status then
          some (planNotes (notes ++ ["ollama_http_error:" ++ toString r2.status,
            pySanitize (.str (errTextOf r2))]))
        else ollamaParse notes r2
  else
    some (planNotes (notes ++ ["ollama_http_error:" ++ toString r.status,
      pySanitize (.str errText)]))

/-- `plan_with_ollama` of `providers/local_ollama.py` lines 271–359 over
the abstract effects.  The payload is used unredacted. -/
def planWithOllama (eff : OllamaEff) (envLocalModel : String)
    (model : String) (payload : JVal) : Option JVal :=
  match eff.ensureServer with
  | some err => some (planNotes [pySanitize (.str err)])
  | none =>
    let model := ollamaCleanTag (if !model.data.isEmpty then model else envLocalModel)
    if model.data.isEmpty then some (planNotes ["ollama_error:empty_model_tag"])
    else
      let missing := !eff.installed.contains model
      let notes : List String :=
        if missing then ["ollama_model_missing:\x27" ++ model ++ "\x27"] else []
      let pulled : Option (Option String) :=
        if missing then
          match eff.pull1 with
          | some pullErr => some (some pullErr)
          | none => some none
        else some none
      match pulled with
      | some (some pullErr) => some (planNotes (notes ++ [pullErr]))
      | _ =>
        match buildOllamaPrompt payload with
        | none => none
        | some prompt =>
          match eff.generate1 model prompt with
          | .error e => some (planNotes (notes ++ ["ollama_request_error:" ++ e]))
          | .ok r =>
            if 400 ≤ r.status then ollamaNotOk eff model prompt notes r
            else ollamaParse notes r

/-! ### Concrete provider scenarios -/

/-- Payload carrying a password-shaped secret and a private address. -/
def wSecretPayload : JVal :=
  .obj [("profile", .str "ctf"), ("recent_events", .arr []),
        ("last_cmd", .str "echo password=hunter2secret"), ("cwd", .str "/tmp"),
        ("exit", .num 0), ("parsed_facts", .obj [("ips", .arr [.str "10.0.0.9"])]),
        ("retrieved_snippets", .arr [])]

/-- The slim OpenAI payload after redaction of `wSecretPayload`. -/
def wSlimRedacted : JVal :=
  .obj [("profile", .str "ctf"), ("last_cmd", .str "echo <PASSWORD>"),
        ("cwd", .str "/tmp"), ("exit", .num 0),
        ("parsed_facts", .obj [("ips", .arr [.str "<IP_PRIV>"])]),
        ("recent_events", .arr []), ("retrieved_snippets", .arr [])]

/-- The slim OpenAI payload without redaction. -/
def wSlimRaw : JVal :=
  .obj [("profile", .str "ctf"), ("last_cmd", .str "echo password=hunter2secret"),
        ("cwd", .str "/tmp"), ("exit", .num 0),
        ("parsed_facts", .obj [("ips", .arr [.str "10.0.0.9"])]),
        ("recent_events", .arr []), ("retrieved_snippets", .arr [])]

/-- A transport spy that returns the request payload as the "plan". -/
def wSpyAttempt : Bool → String → JVal → Except String JVal :=
  fun _ _ blob => .ok (.obj [("echo", blob)])

/-- Ollama effects whose generate call fails with the prompt as the error
text, exposing the prompt in the failure note. -/
def wOllamaEcho : OllamaEff :=
  ⟨none, ["llama3.2:1b"], none, fun _ prompt => .error prompt,
   none, fun _ _ => .error ""⟩

/-- An Anthropic transport that fails for model `m1` and succeeds for any
other model identifier. -/
def wAnthPost : JVal → Except String HResp :=
  fun body =>
    match body with
    | .obj kvs =>
      match jGet kvs "model" with
      | some (.str "m1") => .error "refused"
      | _ => .ok ⟨200,
          "\x7b\"content\":[\x7b\"type\":\"text\",\"text\":\"plan: \x7b\\\"next_actions\\\":[\x7b\\\"cmd\\\":\\\"ls -la\\\"\x7d]\x7d\"\x7d]\x7d"⟩
    | _ => .error "bad body"

/-- The plan the Anthropic client shapes from `wAnthPost`'s success body. -/
def wAnthOkPlan : JVal :=
  .obj [("next_actions", .arr [.obj [("cmd", .str "ls -la"), ("reason", .str ""),
          ("noise", .str "low"), ("safety", .str "read-only")]]),
        ("notes", .arr []), ("escalation_paths", .arr [])]

/-- A per-model OpenAI attempt that fails for `m-bad` and succeeds
otherwise. -/
def wAttempt : Bool → String → Except String JVal :=
  fun _ m => if m == "m-bad" then .error "boom" else .ok (planNotes ["hello"])

/-! ## Orchestrator loop (`agent/agent.py` `run_agent`, lines 129–230)

One batch of the polling loop is embedded over the effectful
collaborators: the filesystem-driven facts gathering (lines 143–155), the
retrieval store, the recent-events window and the chosen provider call.
An `Except.error` from retrieval models a raised exception, which the
outer `except` of the loop catches — aborting the rest of the batch. -/

/-- A parsed session-log event (`utils/schema.py` `LogEvent`): `cmd` is
required, `exit` defaults to 0, the optional string fields default to `""`
and accept an explicit `null`. -/
structure LogEvent where
  ts : Option String
  cmd : String
  exit : Int
  cwd : Option String
  out : Option String
deriving DecidableEq, Repr

/-- Validate an optional-string field. -/
def asOptStr (v : Option JVal) : Option (Option String) :=
  match v with
  | none => some (some "")
  | some .null => some none
  | some (.str s) => some (some s)
  | some _ => none

/-- Pydantic's lax integer: an int, or a string of an integer. -/
def parseLaxInt : JVal → Option Int
  | .num n => some n
  | .str s =>
    let t := (pyStrip s).data
    let (neg, ds) := match t with
      | '-' :: r => (true, r)
      | '+' :: r => (false, r)
      | _ => (false, t)
    if ds.isEmpty || !ds.all Char.isDigit then none
    else
      let n : Int := Int.ofNat (digitsToNat ds)
      some (if neg then -n else n)
  | _ => none

/-- `LogEvent.model_validate_json` over the JSON model. -/
def parseLogEvent (line : String) : Option LogEvent :=
  match jsonLoads line with
  | some (.obj kvs) =>
    match jGet kvs "cmd" with
    | some (.str c) =>
      (asOptStr (jGet kvs "ts")).bind (fun ts =>
        (asOptStr (jGet kvs "cwd")).bind (fun cwd =>
          (asOptStr (jGet kvs "out")).bind (fun out =>
            (match jGet kvs "exit" with
              | none => some 0
              | some v => parseLaxInt v).map (fun ex =>
              ⟨ts, c, ex, cwd, out⟩))))
    | _ => none
  | _ => none

/-- The per-line gate of the loop (lines 134–141): strip, skip blanks,
parse or skip. -/
def lineEvent (line : String) : Option LogEvent :=
  if (pyStrip line).data.isEmpty then none else parseLogEvent (pyStrip line)

/-- A row returned by `retrieve` (`rag/retriever.py` line 166). -/
structure Snippet where
  id : String
  title : String
  tags : String
  text : String
deriving Repr

/-- The loop's effectful collaborators. -/
structure AgentEnv where
  gatherFacts : LogEvent → FactSet
  retrieveF : String → Except String (List Snippet)
  recentEvents : LogEvent → List JVal
  profile : String
  dryRun : Bool
  planCall : JVal → Except String JVal

/-- One audit-log line (line 206–212). -/
structure AuditRecord where
  ts : Option String
  cmd : String
  cwd : Option String
  exit : Int
  facts : FactSet
  plan : PlanJ
deriving Repr

def factAtomToJVal : FAtom → JVal
  | .s v => .str v
  | .n v => .num v

/-- The fact set as the JSON value it is serialized as. -/
def factsToJVal (fs : FactSet) : JVal :=
  .obj (fs.map (fun p => (p.1,
    match p.2 with
    | .leaf l => .arr (l.map factAtomToJVal)
    | .node m => .obj (m.map (fun q => (q.1, .arr (q.2.map factAtomToJVal)))))))

def optStrToJVal : Option String → JVal
  | none => .null
  | some s => .str s

/-- The `retrieved_snippets` field of the payload (lines 182–185). -/
def snippetsToJVal (rs : List Snippet) : JVal :=
  .arr ((rs.take 4).map (fun r =>
    .obj [("title", .str r.title), ("gist", .str (String.mk (r.text.data.take 240))),
          ("cite_id", .str r.id)]))

/-- The payload dict of lines 175–186. -/
def buildPayload (env : AgentEnv) (evt : LogEvent) (facts : FactSet)
    (retrieved : List Snippet) : JVal :=
  .obj [("profile", .str env.profile),
        ("recent_events", .arr (env.recentEvents evt)),
        ("last_cmd", .str evt.cmd),
        ("cwd", optStrToJVal evt.cwd),
        ("exit", .num evt.exit),
        ("parsed_facts", factsToJVal facts),
        ("retrieved_snippets", snippetsToJVal retrieved)]

/-- The retrieval loop of lines 171–173 (`k=1` per topic, capped prefix). -/
def gatherRetrieved (env : AgentEnv) (topics : List String) :
    Except String (List Snippet) :=
  (topics.take 3).foldlM (fun acc t => (env.retrieveF t).map (fun rs => acc ++ rs)) []

/-- The fixed dry-run plan of line 190. -/
def dryPlanJ : JVal :=
  .obj [("next_actions", .arr []), ("notes", .arr [.str "dry-run enabled: no model call"]),
        ("escalation_paths", .arr [])]

/-- The caught-exception plan of line 202. -/
def modelErrorPlan (e : String) : JVal :=
  .obj [("next_actions", .arr []), ("notes", .arr [.str ("model_error:" ++ e)]),
        ("escalation_paths", .arr [])]

/-- Lines 143–212 for one parsed event.  `none` is an exception escaping
to the outer handler (a retrieval error, a malformed fact-set shape, or an
uncoercible provider value); provider-call exceptions are caught inside
(line 201) and still produce a record. -/
def processEvent (env : AgentEnv) (evt : LogEvent) : Option AuditRecord :=
  (deriveTopics (env.gatherFacts evt)).bind (fun topics =>
    (match gatherRetrieved env topics with
      | .ok rs => some rs
      | .error _ => none).bind (fun retrieved =>
      (coercePlan (if env.dryRun then dryPlanJ
        else
          match env.planCall (buildPayload env evt (env.gatherFacts evt) retrieved) with
          | .ok p => p
          | .error e => modelErrorPlan e)).map (fun planC =>
        ⟨evt.ts, evt.cmd, evt.cwd, evt.exit, env.gatherFacts evt, planC⟩)))

/-- One batch of the loop body (the `for line in lines` of line 133): an
escaped exception drops the rest of the batch (the read cursor has already
advanced past it). -/
def processBatch (env : AgentEnv) : List String → List AuditRecord
  | [] => []
  | line :: rest =>
    match lineEvent line with
    | none => processBatch env rest
    | some evt =>
      match processEvent env evt with
      | some r => r :: processBatch env rest
      | none => []

/-- The parseable events of a batch, in order. -/
def validEvents (lines : List String) : List LogEvent :=
  lines.filterMap lineEvent

/-- A valid session-log line. -/
def wLine : String :=
  "\x7b\"ts\":\"t1\",\"cmd\":\"whoami\",\"exit\":0,\"cwd\":\"/\",\"out\":\"\"\x7d"

/-- Another valid session-log line. -/
def wLine2 : String :=
  "\x7b\"ts\":\"t2\",\"cmd\":\"ls -la\",\"exit\":1,\"cwd\":\"/tmp\",\"out\":\"\"\x7d"

/-- An environment whose retrieval store raises on every query. -/
def wEnvRetrFail : AgentEnv :=
  ⟨fun _ => emptyFacts, fun _ => .error "database is locked", fun _ => [],
   "prod-safe", true, fun _ => .error "unused"⟩

/-- An environment with a healthy store but a provider that always raises
(the exception is caught per event). -/
def wEnvProviderDown : AgentEnv :=
  ⟨fun _ => emptyFacts, fun _ => .ok [], fun _ => [],
   "prod-safe", false, fun _ => .error "server unreachable"⟩

/-! ### Lemmas about `extendUnique` -/

theorem extendUnique_nil_right (a : List FAtom) : extendUnique a [] = a := rfl

theorem foldl_extend_of_subset :
    ∀ (b acc : List FAtom), (∀ x ∈ b, x ∈ acc) →
      b.foldl (fun acc x => if x ∈ acc then acc else acc ++ [x]) acc = acc := by
  intro b
  induction b with
  | nil => intro acc _; rfl
  | cons x rest ih =>
    intro acc h
    have hx : x ∈ acc := h x (List.mem_cons_self x rest)
    simp only [List.foldl_cons, if_pos hx]
    exact ih acc (fun y hy => h y (List.mem_cons_of_mem x hy))

/-- Merging a leaf into itself (or any subset) is a no-op. -/
theorem extendUnique_of_subset {a b : List FAtom} (h : ∀ x ∈ b, x ∈ a) :
    extendUnique a b = a :=
  foldl_extend_of_subset b a h

theorem extendUnique_self (a : List FAtom) : extendUnique a a = a :=
  extendUnique_of_subset (fun _ hx => hx)

/-- `_extend_unique` only appends: the result is the accumulator followed by
a duplicate-free list of incoming elements that were not already present. -/
theorem extendUnique_spec :
    ∀ (b acc : List FAtom), ∃ extra,
      b.foldl (fun acc x => if x ∈ acc then acc else acc ++ [x]) acc = acc ++ extra ∧
      extra.Nodup ∧ ∀ x ∈ extra, x ∈ b ∧ x ∉ acc := by
  intro b
  induction b with
  | nil => intro acc; exact ⟨[], by simp⟩
  | cons x rest ih =>
    intro acc
    by_cases hx : x ∈ acc
    · obtain ⟨extra, he, hn, hm⟩ := ih acc
      refine ⟨extra, by simpa [hx] using he, hn, ?_⟩
      intro y hy
      exact ⟨List.mem_cons_of_mem x (hm y hy).1, (hm y hy).2⟩
    · obtain ⟨extra, he, hn, hm⟩ := ih (acc ++ [x])
      refine ⟨x :: extra, ?_, ?_, ?_⟩
      · simpa [hx, List.append_assoc] using he
      · refine List.nodup_cons.mpr ⟨?_, hn⟩
        intro hxe
        exact (hm x hxe).2 (by simp)
      · intro y hy
        rcases List.mem_cons.mp hy with rfl | hy'
        · exact ⟨List.mem_cons_self y rest, hx⟩
        · refine ⟨List.mem_cons_of_mem x (hm y hy').1, ?_⟩
          intro hya
          exact (hm y hy').2 (by simp [hya])

theorem extendUnique_append_spec (a b : List FAtom) :
    ∃ extra, extendUnique a b = a ++ extra ∧ extra.Nodup ∧
      ∀ x ∈ extra, x ∈ b ∧ x ∉ a :=
  extendUnique_spec b a

/-- Every element of the accumulator survives `_extend_unique`. -/
theorem mem_extendUnique_of_mem {x : FAtom} {a : List FAtom} (b : List FAtom)
    (h : x ∈ a) : x ∈ extendUnique a b := by
  obtain ⟨extra, he, -, -⟩ := extendUnique_append_spec a b
  rw [he]
  exact List.mem_append_left _ h

/-! ### Association-list lookup facts -/

theorem lookup_eq_some_of_mem {α : Type} {l : List (String × α)} {k : String} {v : α}
    (hnd : (l.map Prod.fst).Nodup) (hmem : (k, v) ∈ l) :
    List.lookup k l = some v := by
  induction l with
  | nil => cases hmem
  | cons p rest ih =>
    rcases List.mem_cons.mp hmem with rfl | hmem'
    · simp [List.lookup]
    · have hk : p.1 ≠ k := by
        intro hkeq
        have : k ∈ rest.map Prod.fst := List.mem_map.mpr ⟨(k, v), hmem', rfl⟩
        rw [List.map_cons, List.nodup_cons] at hnd
        exact hnd.1 (hkeq ▸ this)
      have hnd' : (rest.map Prod.fst).Nodup := by
        rw [List.map_cons, List.nodup_cons] at hnd
        exact hnd.2
      have hbe : (k == p.1) = false := beq_eq_false_iff_ne.mpr (fun h => hk h.symm)
      simp only [List.lookup, hbe]
      exact ih hnd' hmem'

theorem lookup_isSome_of_mem_keys {α : Type} {l : List (String × α)} {k : String}
    (h : k ∈ l.map Prod.fst) : (List.lookup k l).isSome := by
  induction l with
  | nil => simp at h
  | cons p rest ih =>
    by_cases hk : k = p.1
    · simp [List.lookup, hk]
    · simp only [List.map_cons, List.mem_cons] at h
      rcases h with h | h
      · exact absurd h hk
      · have hbe : (k == p.1) = false := beq_eq_false_iff_ne.mpr hk
        simp only [List.lookup, hbe]
        exact ih h

theorem lookup_eq_none_of_not_mem_keys {α : Type} {l : List (String × α)} {k : String}
    (h : k ∉ l.map Prod.fst) : List.lookup k l = none := by
  induction l with
  | nil => rfl
  | cons p rest ih =>
    simp only [List.map_cons, List.mem_cons] at h
    push_neg at h
    have hbe : (k == p.1) = false := beq_eq_false_iff_ne.mpr h.1
    simp only [List.lookup, hbe]
    exact ih h.2

theorem lookup_append_assoc {α : Type} (k : String) (l1 l2 : List (String × α)) :
    List.lookup k (l1 ++ l2) = ((List.lookup k l1).or (List.lookup k l2)) := by
  induction l1 with
  | nil => simp [Option.or]
  | cons p rest ih =>
    cases hbe : (k == p.1) with
    | true => simp [List.lookup, hbe, Option.or]
    | false => simp [List.lookup, hbe, ih]

theorem map_eq_self_of {α : Type} {l : List α} {f : α → α} (h : ∀ a ∈ l, f a = a) :
    l.map f = l := by
  induction l with
  | nil => rfl
  | cons a rest ih =>
    rw [List.map_cons, h a (List.mem_cons_self a rest),
      ih (fun b hb => h b (List.mem_cons_of_mem a hb))]

/-! ### Structural facts about `mergeStep` and `mergeFacts` -/

/-- `merge_facts` never renames a key. -/
theorem mergeStep_fst (incoming : FactSet) (p : String × FVal) :
    (mergeStep incoming p).1 = p.1 := by
  obtain ⟨k, v⟩ := p
  cases v with
  | leaf l => rfl
  | node m =>
    cases hiv : List.lookup k incoming with
    | none => simp [mergeStep, hiv]
    | some w => cases w <;> simp [mergeStep, hiv]

theorem mergeStep_leaf (incoming : FactSet) (k : String) (l : List FAtom) :
    mergeStep incoming (k, .leaf l) =
      (k, .leaf (extendUnique l (incomingLeafFor (List.lookup k incoming)))) := rfl

theorem mergeStep_node_node {incoming : FactSet} {k : String} {m2 : List (String × List FAtom)}
    (m : List (String × List FAtom)) (hiv : List.lookup k incoming = some (.node m2)) :
    mergeStep incoming (k, .node m) = (k, .node (mergeNodeSub m m2)) := by
  simp [mergeStep, hiv]

theorem mergeStep_node_none {incoming : FactSet} {k : String}
    (m : List (String × List FAtom)) (hiv : List.lookup k incoming = none) :
    mergeStep incoming (k, .node m) = (k, .node m) := by
  simp [mergeStep, hiv]

theorem mergeStep_node_leaf {incoming : FactSet} {k : String} {l2 : List FAtom}
    (m : List (String × List FAtom)) (hiv : List.lookup k incoming = some (.leaf l2)) :
    mergeStep incoming (k, .node m) = (k, .node m) := by
  simp [mergeStep, hiv]

theorem isEmpty_false_of_ne_nil {α : Type} {l : List α} (h : l ≠ []) :
    l.isEmpty = false := by
  cases l with
  | nil => exact absurd rfl h
  | cons a rest => rfl

/-- Unfolding of `mergeFacts` when both arguments are non-empty dicts. -/
theorem mergeFacts_eq {base incoming : FactSet} (hb : base ≠ []) (hi : incoming ≠ []) :
    mergeFacts base incoming =
      base.map (mergeStep incoming)
        ++ incoming.filter (fun q => (List.lookup q.1 base).isNone) := by
  unfold mergeFacts
  rw [isEmpty_false_of_ne_nil hb, isEmpty_false_of_ne_nil hi]
  rfl

theorem mergeFacts_nil_incoming {base : FactSet} (hb : base ≠ []) :
    mergeFacts base [] = base := by
  unfold mergeFacts
  rw [isEmpty_false_of_ne_nil hb]
  rfl

/-- Key sequence of a merge: the base keys, then the genuinely new keys. -/
theorem mergeFacts_keys {base incoming : FactSet} (hb : base ≠ []) (hi : incoming ≠ []) :
    (mergeFacts base incoming).map Prod.fst =
      base.map Prod.fst
        ++ (incoming.filter (fun q => (List.lookup q.1 base).isNone)).map Prod.fst := by
  rw [mergeFacts_eq hb hi, List.map_append]
  congr 1
  rw [List.map_map]
  exact List.map_congr_left (fun p _ => mergeStep_fst incoming p)

theorem NodupFacts.node_nodup {fs : FactSet} (h : NodupFacts fs) {k : String}
    {m : List (String × List FAtom)} (hmem : (k, FVal.node m) ∈ fs) :
    (m.map Prod.fst).Nodup :=
  h.2 (k, FVal.node m) hmem

/-- Merging a sub-dict with itself is a no-op. -/
theorem mergeNodeSub_self {m : List (String × List FAtom)}
    (hnd : (m.map Prod.fst).Nodup) : mergeNodeSub m m = m := by
  apply map_eq_self_of
  intro p hp
  have : List.lookup p.1 m = some p.2 := lookup_eq_some_of_mem hnd (by
    obtain ⟨sk, l⟩ := p; exact hp)
  simp [this, extendUnique_self]

/-- Sub-key sequences are preserved by the inner merge loop. -/
theorem mergeNodeSub_fst (m m2 : List (String × List FAtom)) :
    (mergeNodeSub m m2).map Prod.fst = m.map Prod.fst := by
  unfold mergeNodeSub
  rw [List.map_map]
  rfl

theorem map_fst_mergeStep (incoming : FactSet) (l : FactSet) :
    (l.map (mergeStep incoming)).map Prod.fst = l.map Prod.fst := by
  rw [List.map_map]
  exact List.map_congr_left (fun p _ => mergeStep_fst incoming p)

/-- Merging a fact set into itself changes nothing. -/
theorem mergeFacts_self {A : FactSet} (hA : A ≠ []) (hnd : NodupFacts A) :
    mergeFacts A A = A := by
  rw [mergeFacts_eq hA hA]
  have hmap : A.map (mergeStep A) = A := by
    apply map_eq_self_of
    intro p hp
    obtain ⟨k, v⟩ := p
    have hlk : List.lookup k A = some v := lookup_eq_some_of_mem hnd.1 hp
    cases v with
    | leaf l =>
      rw [mergeStep_leaf, hlk]
      simp [incomingLeafFor, extendUnique_self]
    | node m =>
      rw [mergeStep_node_node m hlk, mergeNodeSub_self (hnd.node_nodup hp)]
  have hfil : A.filter (fun q => (List.lookup q.1 A).isNone) = [] := by
    rw [List.filter_eq_nil]
    intro q hq
    have hs := lookup_isSome_of_mem_keys (l := A) (k := q.1)
      (List.mem_map.mpr ⟨q, hq, rfl⟩)
    simp only [Option.isNone]
    cases hlk : List.lookup q.1 A with
    | none => rw [hlk] at hs; simp at hs
    | some v => simp
  rw [hmap, hfil, List.append_nil]

/-- Re-merging the first operand is absorbed: `merge (merge A B) A = merge A B`. -/
theorem mergeFacts_absorb {A B : FactSet} (hA : A ≠ [])
    (hndA : NodupFacts A) : mergeFacts (mergeFacts A B) A = mergeFacts A B := by
  by_cases hB : B = []
  · subst hB
    rw [mergeFacts_nil_incoming hA]
    exact mergeFacts_self hA hndA
  · have hCeq := mergeFacts_eq hA hB
    have hCne : mergeFacts A B ≠ [] := by
      rw [hCeq]
      cases A with
      | nil => exact absurd rfl hA
      | cons p rest => simp
    rw [mergeFacts_eq hCne hA]
    have hfil : A.filter (fun q => (List.lookup q.1 (mergeFacts A B)).isNone) = [] := by
      rw [List.filter_eq_nil]
      intro q hq
      have hkeys : q.1 ∈ (mergeFacts A B).map Prod.fst := by
        rw [mergeFacts_keys hA hB]
        exact List.mem_append_left _ (List.mem_map.mpr ⟨q, hq, rfl⟩)
      have hs := lookup_isSome_of_mem_keys hkeys
      simp only [Option.isNone]
      cases hlk : List.lookup q.1 (mergeFacts A B) with
      | none => rw [hlk] at hs; simp at hs
      | some v => simp
    have hmap : (mergeFacts A B).map (mergeStep A) = mergeFacts A B := by
      apply map_eq_self_of
      intro q hq
      rw [hCeq] at hq
      rcases List.mem_append.mp hq with hq1 | hq2
      · obtain ⟨p, hpA, rfl⟩ := List.mem_map.mp hq1
        obtain ⟨k, v⟩ := p
        have hlkA : List.lookup k A = some v := lookup_eq_some_of_mem hndA.1 hpA
        cases v with
        | leaf l =>
          rw [mergeStep_leaf, mergeStep_leaf, hlkA]
          have : extendUnique
              (extendUnique l (incomingLeafFor (List.lookup k B)))
              (incomingLeafFor (some (FVal.leaf l))) =
              extendUnique l (incomingLeafFor (List.lookup k B)) := by
            apply extendUnique_of_subset
            intro x hx
            exact mem_extendUnique_of_mem _ hx
          rw [this]
        | node m =>
          have hsub : (m.map Prod.fst).Nodup := hndA.node_nodup hpA
          cases hlkB : List.lookup k B with
          | none =>
            rw [mergeStep_node_none m hlkB, mergeStep_node_node m hlkA,
              mergeNodeSub_self hsub]
          | some w =>
            cases w with
            | leaf l2 =>
              rw [mergeStep_node_leaf m hlkB, mergeStep_node_node m hlkA,
                mergeNodeSub_self hsub]
            | node m2 =>
              rw [mergeStep_node_node m hlkB, mergeStep_node_node (mergeNodeSub m m2) hlkA]
              have : mergeNodeSub (mergeNodeSub m m2) m = mergeNodeSub m m2 := by
                unfold mergeNodeSub
                rw [List.map_map]
                apply List.map_congr_left
                intro p hp
                have hlkm : List.lookup p.1 m = some p.2 := lookup_eq_some_of_mem hsub (by
                  obtain ⟨sk, l⟩ := p; exact hp)
                simp only [Function.comp, hlkm, Option.getD_some]
                congr 1
                apply extendUnique_of_subset
                intro x hx
                exact mem_extendUnique_of_mem _ hx
              rw [this]
      · have hqB : q ∈ B := List.mem_of_mem_filter hq2
        have hcond := List.of_mem_filter hq2
        have hlkA : List.lookup q.1 A = none := by
          cases hlk : List.lookup q.1 A with
          | none => rfl
          | some v => rw [hlk] at hcond; simp [Option.isNone] at hcond
        obtain ⟨k, v⟩ := q
        cases v with
        | leaf l =>
          rw [mergeStep_leaf, hlkA]
          simp [incomingLeafFor, extendUnique_nil_right]
        | node m => exact mergeStep_node_none m hlkA
    rw [hmap, hfil, List.append_nil]

/-- Looking up a base key in the merge result yields the merged entry. -/
theorem lookup_mergeFacts_of_mem {A B : FactSet} (hA : A ≠ []) (hB : B ≠ [])
    (hndA : NodupFacts A) {k : String} {v : FVal} (hmem : (k, v) ∈ A) :
    List.lookup k (mergeFacts A B) = some (mergeStep B (k, v)).2 := by
  rw [mergeFacts_eq hA hB, lookup_append_assoc]
  have hndmap : ((A.map (mergeStep B)).map Prod.fst).Nodup := by
    rw [map_fst_mergeStep]
    exact hndA.1
  have hmem' : (k, (mergeStep B (k, v)).2) ∈ A.map (mergeStep B) :=
    List.mem_map.mpr ⟨(k, v), hmem, Prod.ext (mergeStep_fst B (k, v)) rfl⟩
  rw [lookup_eq_some_of_mem hndmap hmem']
  rfl

/-- Claim C1: fact merging is idempotent and duplicate-free per leaf.
Merging a fact set into itself changes nothing; merging `A` then `B` then `A`
again equals merging `A` then `B`; and merging never removes or overwrites an
existing fact — every base leaf survives as a prefix, extended only by
incoming values not already present. -/
theorem claim_C1 (A B : FactSet) (hA : A ≠ []) (hB : B ≠ [])
    (hndA : NodupFacts A) :
    mergeFacts A A = A ∧
    mergeFacts (mergeFacts A B) A = mergeFacts A B ∧
    (∀ k l, (k, FVal.leaf l) ∈ A → ∃ extra,
        List.lookup k (mergeFacts A B) = some (.leaf (l ++ extra)) ∧
        extra.Nodup ∧
        ∀ x ∈ extra, x ∈ incomingLeafFor (List.lookup k B) ∧ x ∉ l) ∧
    (∀ k m, (k, FVal.node m) ∈ A → ∃ m',
        List.lookup k (mergeFacts A B) = some (.node m') ∧
        m'.map Prod.fst = m.map Prod.fst ∧
        ∀ sk l, (sk, l) ∈ m → ∃ extra, (sk, l ++ extra) ∈ m' ∧
          extra.Nodup ∧ ∀ x ∈ extra, x ∉ l) := by
  refine ⟨mergeFacts_self hA hndA, mergeFacts_absorb hA hndA, ?_, ?_⟩
  · intro k l hmem
    have hlk := lookup_mergeFacts_of_mem hA hB hndA hmem
    rw [mergeStep_leaf] at hlk
    obtain ⟨extra, he, hn, hm⟩ :=
      extendUnique_append_spec l (incomingLeafFor (List.lookup k B))
    exact ⟨extra, by rw [hlk, he], hn, hm⟩
  · intro k m hmem
    have hlk := lookup_mergeFacts_of_mem hA hB hndA hmem
    cases hlkB : List.lookup k B with
    | none =>
      rw [mergeStep_node_none m hlkB] at hlk
      refine ⟨m, hlk, rfl, ?_⟩
      intro sk l hskl
      exact ⟨[], by simpa using hskl, List.nodup_nil, by simp⟩
    | some w =>
      cases w with
      | leaf l2 =>
        rw [mergeStep_node_leaf m hlkB] at hlk
        refine ⟨m, hlk, rfl, ?_⟩
        intro sk l hskl
        exact ⟨[], by simpa using hskl, List.nodup_nil, by simp⟩
      | node m2 =>
        rw [mergeStep_node_node m hlkB] at hlk
        refine ⟨mergeNodeSub m m2, hlk, mergeNodeSub_fst m m2, ?_⟩
        intro sk l hskl
        obtain ⟨extra, he, hn, hm⟩ :=
          extendUnique_append_spec l ((List.lookup sk m2).getD [])
        refine ⟨extra, ?_, hn, fun x hx => (hm x hx).2⟩
        have : (sk, extendUnique l ((List.lookup sk m2).getD [])) ∈ mergeNodeSub m m2 :=
          List.mem_map.mpr ⟨(sk, l), hskl, rfl⟩
        rwa [he] at this

/-- Claim C1 witness: the merge theorem instantiated at concrete fact sets. -/
theorem claim_C1_witness :
    mergeFacts wFactsA wFactsA = wFactsA ∧
    mergeFacts (mergeFacts wFactsA wFactsB) wFactsA = mergeFacts wFactsA wFactsB ∧
    (∀ k l, (k, FVal.leaf l) ∈ wFactsA → ∃ extra,
        List.lookup k (mergeFacts wFactsA wFactsB) = some (.leaf (l ++ extra)) ∧
        extra.Nodup ∧
        ∀ x ∈ extra, x ∈ incomingLeafFor (List.lookup k wFactsB) ∧ x ∉ l) ∧
    (∀ k m, (k, FVal.node m) ∈ wFactsA → ∃ m',
        List.lookup k (mergeFacts wFactsA wFactsB) = some (.node m') ∧
        m'.map Prod.fst = m.map Prod.fst ∧
        ∀ sk l, (sk, l) ∈ m → ∃ extra, (sk, l ++ extra) ∈ m' ∧
          extra.Nodup ∧ ∀ x ∈ extra, x ∉ l) :=
  claim_C1 wFactsA wFactsB (by decide) (by decide) (by decide)

/-- Claim C10: merging preserves the leaf shape of known categories.  When a
top-level key maps to a dict in both operands, only the accumulator's
sub-keys are merged; a sub-key present only in the incoming dict is silently
discarded; only entirely new top-level keys are appended verbatim. -/
theorem claim_C10 (A B : FactSet) (hA : A ≠ []) (hB : B ≠ [])
    (hndA : NodupFacts A) (k : String) (m m2 : List (String × List FAtom))
    (hmem : (k, FVal.node m) ∈ A) (hB2 : List.lookup k B = some (.node m2)) :
    List.lookup k (mergeFacts A B) = some (.node (mergeNodeSub m m2)) ∧
    (mergeNodeSub m m2).map Prod.fst = m.map Prod.fst ∧
    (∀ sk, sk ∉ m.map Prod.fst → sk ∉ (mergeNodeSub m m2).map Prod.fst) ∧
    (∀ k2 v2, (k2, v2) ∈ B → List.lookup k2 A = none → (k2, v2) ∈ mergeFacts A B) ∧
    (mergeFacts A B).map Prod.fst =
      A.map Prod.fst
        ++ (B.filter (fun q => (List.lookup q.1 A).isNone)).map Prod.fst := by
  refine ⟨?_, mergeNodeSub_fst m m2, ?_, ?_, mergeFacts_keys hA hB⟩
  · have hlk := lookup_mergeFacts_of_mem hA hB hndA hmem
    rwa [mergeStep_node_node m hB2] at hlk
  · intro sk hsk
    rw [mergeNodeSub_fst]
    exact hsk
  · intro k2 v2 hmemB hnone
    rw [mergeFacts_eq hA hB]
    refine List.mem_append_right _ (List.mem_filter.mpr ⟨hmemB, ?_⟩)
    simp [hnone, Option.isNone]

/-! ### Python string order and sorting -/

theorem pyLeAux_total : ∀ a b : List Char, pyLeAux a b = true ∨ pyLeAux b a = true := by
  intro a
  induction a with
  | nil => intro b; left; rfl
  | cons x as ih =>
    intro b
    cases b with
    | nil => right; rfl
    | cons y bs =>
      rcases lt_trichotomy x y with h | h | h
      · left; simp [pyLeAux, h]
      · subst h
        rcases ih bs with h2 | h2
        · left; simp [pyLeAux, lt_irrefl, h2]
        · right; simp [pyLeAux, lt_irrefl, h2]
      · right; simp [pyLeAux, h]

theorem pyLeAux_trans :
    ∀ a b c : List Char, pyLeAux a b = true → pyLeAux b c = true →
      pyLeAux a c = true := by
  intro a
  induction a with
  | nil => intro b c _ _; rfl
  | cons x as ih =>
    intro b c h1 h2
    cases b with
    | nil => simp [pyLeAux] at h1
    | cons y bs =>
      cases c with
      | nil => simp [pyLeAux] at h2
      | cons z cs =>
        rcases lt_trichotomy x y with hxy | hxy | hxy
        · rcases lt_trichotomy y z with hyz | hyz | hyz
          · simp [pyLeAux, lt_trans hxy hyz]
          · subst hyz; simp [pyLeAux, hxy]
          · simp [pyLeAux, hyz, asymm hyz] at h2
        · subst hxy
          simp only [pyLeAux, lt_irrefl, if_false] at h1
          rcases lt_trichotomy x z with hxz | hxz | hxz
          · simp [pyLeAux, hxz]
          · subst hxz
            simp only [pyLeAux, lt_irrefl, if_false] at h2 ⊢
            exact ih bs cs h1 h2
          · simp [pyLeAux, hxz, asymm hxz] at h2
        · simp [pyLeAux, hxy, asymm hxy] at h1

theorem pyStrLe_total (a b : String) : pyStrLe a b = true ∨ pyStrLe b a = true :=
  pyLeAux_total a.data b.data

theorem pyInsert_perm (x : String) :
    ∀ l : List String, (pyInsert x l).Perm (x :: l) := by
  intro l
  induction l with
  | nil => exact List.Perm.refl _
  | cons y ys ih =>
    by_cases h : pyStrLe x y = true
    · simp [pyInsert, h]
    · simp only [pyInsert, if_neg h]
      exact (ih.cons y).trans (List.Perm.swap x y ys)

theorem pySortStrings_perm : ∀ l : List String, (pySortStrings l).Perm l := by
  intro l
  induction l with
  | nil => exact List.Perm.refl _
  | cons a rest ih =>
    exact (pyInsert_perm a (pySortStrings rest)).trans (ih.cons a)

theorem sorted_pyInsert (x : String) :
    ∀ {l : List String}, l.Sorted (fun a b => pyStrLe a b = true) →
      (pyInsert x l).Sorted (fun a b => pyStrLe a b = true) := by
  intro l
  induction l with
  | nil => intro _; simp [pyInsert]
  | cons y ys ih =>
    intro hs
    rw [List.sorted_cons] at hs
    by_cases h : pyStrLe x y = true
    · simp only [pyInsert, if_pos h]
      rw [List.sorted_cons]
      refine ⟨?_, List.sorted_cons.mpr hs⟩
      intro z hz
      rcases List.mem_cons.mp hz with rfl | hz'
      · exact h
      · exact pyLeAux_trans _ _ _ h (hs.1 z hz')
    · simp only [pyInsert, if_neg h]
      rw [List.sorted_cons]
      refine ⟨?_, ih hs.2⟩
      intro z hz
      have hz' := (pyInsert_perm x ys).mem_iff.mp hz
      rcases List.mem_cons.mp hz' with rfl | hz''
      · rcases pyStrLe_total y z with h2 | h2
        · exact h2
        · exact absurd h2 h
      · exact hs.1 z hz''

theorem sorted_pySortStrings (l : List String) :
    (pySortStrings l).Sorted (fun a b => pyStrLe a b = true) := by
  induction l with
  | nil => simp [pySortStrings]
  | cons a rest ih => exact sorted_pyInsert a ih

theorem pyLeAux_iff_not_lt :
    ∀ a b : List Char, pyLeAux a b = true ↔ ¬ List.lt b a := by
  intro a
  induction a with
  | nil =>
    intro b
    constructor
    · intro _ hlt; cases hlt
    · intro _; rfl
  | cons x as ih =>
    intro b
    cases b with
    | nil =>
      constructor
      · intro h; simp [pyLeAux] at h
      · intro h; exact absurd (List.lt.nil x as) h
    | cons y bs =>
      rcases lt_trichotomy x y with hxy | hxy | hxy
      · constructor
        · intro _ hlt
          cases hlt with
          | head _ _ h => exact asymm hxy h
          | tail h1 h2 _ => exact h2 hxy
        · intro _; simp [pyLeAux, hxy]
      · subst hxy
        constructor
        · intro h hlt
          simp only [pyLeAux, lt_irrefl, if_false] at h
          cases hlt with
          | head _ _ hl => exact lt_irrefl x hl
          | tail h1 h2 hl => exact (ih bs).mp h hl
        · intro h
          simp only [pyLeAux, lt_irrefl, if_false]
          exact (ih bs).mpr (fun hl => h (List.lt.tail (lt_irrefl x) (lt_irrefl x) hl))
      · constructor
        · intro h
          simp [pyLeAux, hxy, asymm hxy] at h
        · intro h
          exact absurd (List.lt.head bs as hxy) h

theorem pyStrLe_imp_le {a b : String} (h : pyStrLe a b = true) : a ≤ b := by
  rw [String.le_iff_toList_le]
  apply le_of_not_lt
  intro hlt
  exact (pyLeAux_iff_not_lt a.data b.data).mp h ((List.lt_iff_lex_lt _ _).mpr hlt)

/-- Claim C6: extraction fills `entities.ips` with the deduplicated, sorted
set of IPv4 matches; on text containing `192.168.1.10`, `10.0.0.5` and
`8.8.8.8` (with a repeat) the result is exactly the sorted three-element set. -/
theorem claim_C6 :
    (∀ text, (extract_ips text).Sorted (· ≤ ·) ∧ (extract_ips text).Nodup) ∧
    extract_ips "Found 192.168.1.10, then 10.0.0.5; again 192.168.1.10 plus 8.8.8.8." =
      ["10.0.0.5", "192.168.1.10", "8.8.8.8"] := by
  constructor
  · intro text
    constructor
    · exact (sorted_pySortStrings _).imp (fun h => pyStrLe_imp_le h)
    · exact (pySortStrings_perm _).symm.nodup (List.nodup_dedup _)
  · decide

/-- Claim C3: normalizing a structured backend response extracts the
largest brace-delimited JSON block from the free text, keeps only dict
entries of `next_actions`, defaults missing noise to "low" and missing
safety to "read-only", and drops every suggestion whose command is empty
after trimming; the prose-wrapped example normalizes to exactly one
suggestion `nmap -sV target`. -/
theorem claim_C3 :
    ((extractJson "some text with \x7b\"next_actions\":[\x7b\"cmd\":\"nmap -sV target\"\x7d]\x7d trailing").map shapePlan =
      some ⟨[⟨"nmap -sV target", "", "low", "read-only"⟩], [], []⟩) ∧
    (∀ v a, a ∈ (shapePlan v).next_actions → a.cmd ≠ "") ∧
    (∀ m, jGet m "noise" = none → (cleanAction m).noise = "low") ∧
    (∀ m, jGet m "safety" = none → (cleanAction m).safety = "read-only") ∧
    (shapePlan (.obj [("next_actions", .arr [.str "echo hi", .obj [("cmd", .str "   ")],
        .num 5, .obj [("cmd", .str " nmap -sV x ")]])]) =
      ⟨[⟨"nmap -sV x", "", "low", "read-only"⟩], [], []⟩) := by
  refine ⟨by decide, ?_, ?_, ?_, by decide⟩
  · intro v a ha
    cases v with
    | obj kvs =>
      have ha' : a ∈ shapeActions kvs := by simpa [shapePlan] using ha
      unfold shapeActions at ha'
      cases hna : pyOr (pyOr (jGetD kvs "next_actions" .null) (jGetD kvs "actions" .null)) (.arr []) with
      | arr xs =>
        rw [hna] at ha'
        have hcmd := List.of_mem_filter ha'
        intro he
        rw [he] at hcmd
        simp at hcmd
      | null => rw [hna] at ha'; simp at ha'
      | bool b => rw [hna] at ha'; simp at ha'
      | num n => rw [hna] at ha'; simp at ha'
      | flt l => rw [hna] at ha'; simp at ha'
      | str s => rw [hna] at ha'; simp at ha'
      | obj m => rw [hna] at ha'; simp at ha'
    | null => simp [shapePlan] at ha
    | bool b => simp [shapePlan] at ha
    | flt l => simp [shapePlan] at ha
    | num n => simp [shapePlan] at ha
    | str s => simp [shapePlan] at ha
    | arr xs => simp [shapePlan] at ha
  · intro m h
    simp only [cleanAction, jGetD, h, Option.getD_none]
    decide
  · intro m h
    simp only [cleanAction, jGetD, h, Option.getD_none]
    decide

/-- Claim C3 witness: the normalization theorem instantiated at concrete
inputs — the surviving example command is non-empty, and a suggestion dict
without noise or safety keys gets the documented defaults. -/
theorem claim_C3_witness :
    ("nmap -sV target" : String) ≠ "" ∧
    (cleanAction [("cmd", JVal.str "x")]).noise = "low" ∧
    (cleanAction [("cmd", JVal.str "x")]).safety = "read-only" :=
  ⟨claim_C3.2.1
      (JVal.obj [("next_actions", JVal.arr [JVal.obj [("cmd", JVal.str "nmap -sV target")]])])
      ⟨"nmap -sV target", "", "low", "read-only"⟩ (by decide),
   claim_C3.2.2.1 [("cmd", JVal.str "x")] rfl,
   claim_C3.2.2.2.1 [("cmd", JVal.str "x")] rfl⟩

/-- Claim C5: topic derivation is a deterministic rule cascade in the fixed
order Web, Network, Vulnerabilities, Credentials, with "General" exactly
when no rule fires; all firing topics are kept in that order and retrieval
consumes only the first three.  A non-empty `entities.urls` puts "Web"
first. -/
theorem claim_C5 (fs : FactSet) (ents arts vulns creds : List (String × List FAtom))
    (he : catLookup fs "entities" = some ents)
    (ha : catLookup fs "artifacts" = some arts)
    (hv : catLookup fs "vulns" = some vulns)
    (hc : catLookup fs "creds" = some creds) :
    ∃ ts, deriveTopics fs = some ts ∧
      ts = topicResult (subTruthy ents "urls" || subTruthy ents "domains")
        (subTruthy ents "ips" || subTruthy arts "ports")
        (subTruthy vulns "cves")
        (subTruthy creds "pairs" || subTruthy creds "passwords") ∧
      (ts = ["General"] ↔
        (subTruthy ents "urls" || subTruthy ents "domains") = false ∧
        (subTruthy ents "ips" || subTruthy arts "ports") = false ∧
        subTruthy vulns "cves" = false ∧
        (subTruthy creds "pairs" || subTruthy creds "passwords") = false) ∧
      (subTruthy ents "urls" = true → ts.head? = some "Web") ∧
      topicsForRetrieval fs = some (ts.take 3) ∧
      (ts.take 3).length ≤ 3 := by
  have hd : deriveTopics fs = some
      (topicResult (subTruthy ents "urls" || subTruthy ents "domains")
        (subTruthy ents "ips" || subTruthy arts "ports")
        (subTruthy vulns "cves")
        (subTruthy creds "pairs" || subTruthy creds "passwords")) := by
    unfold deriveTopics topicResult topicList
    cases hips : subTruthy ents "ips" with
    | false => simp [he, ha, hv, hc, hips]
    | true => simp [he, hv, hc, hips]
  refine ⟨_, hd, rfl, ?_, ?_, ?_, ?_⟩
  · generalize (subTruthy ents "urls" || subTruthy ents "domains") = w
    generalize (subTruthy ents "ips" || subTruthy arts "ports") = n
    generalize subTruthy vulns "cves" = v
    generalize (subTruthy creds "pairs" || subTruthy creds "passwords") = c
    cases w <;> cases n <;> cases v <;> cases c <;> decide
  · intro hu
    have hw : (subTruthy ents "urls" || subTruthy ents "domains") = true := by
      rw [hu]; rfl
    rw [hw]
    generalize (subTruthy ents "ips" || subTruthy arts "ports") = n
    generalize subTruthy vulns "cves" = v
    generalize (subTruthy creds "pairs" || subTruthy creds "passwords") = c
    cases n <;> cases v <;> cases c <;> decide
  · simp [topicsForRetrieval, hd]
  · generalize (subTruthy ents "urls" || subTruthy ents "domains") = w
    generalize (subTruthy ents "ips" || subTruthy arts "ports") = n
    generalize subTruthy vulns "cves" = v
    generalize (subTruthy creds "pairs" || subTruthy creds "passwords") = c
    cases w <;> cases n <;> cases v <;> cases c <;> decide

/-- Claim C5 witness: the topic theorem instantiated at a concrete fact set
whose `entities.urls` is non-empty (and with an open port), deriving
`["Web", "Network"]`. -/
theorem claim_C5_witness :
    ∃ ts, deriveTopics wFactsWeb = some ts ∧
      ts = topicResult (subTruthy wEntsWeb "urls" || subTruthy wEntsWeb "domains")
        (subTruthy wEntsWeb "ips" || subTruthy wArtsWeb "ports")
        (subTruthy wVulnsWeb "cves")
        (subTruthy wCredsWeb "pairs" || subTruthy wCredsWeb "passwords") ∧
      (ts = ["General"] ↔
        (subTruthy wEntsWeb "urls" || subTruthy wEntsWeb "domains") = false ∧
        (subTruthy wEntsWeb "ips" || subTruthy wArtsWeb "ports") = false ∧
        subTruthy wVulnsWeb "cves" = false ∧
        (subTruthy wCredsWeb "pairs" || subTruthy wCredsWeb "passwords") = false) ∧
      (subTruthy wEntsWeb "urls" = true → ts.head? = some "Web") ∧
      topicsForRetrieval wFactsWeb = some (ts.take 3) ∧
      (ts.take 3).length ≤ 3 :=
  claim_C5 wFactsWeb wEntsWeb wArtsWeb wVulnsWeb wCredsWeb rfl rfl rfl rfl

/-! ### Store lemmas -/

theorem mem_storeIds_iff_any {s : Store} {cid : String} :
    (s.any (fun r => r.id == cid)) = true ↔ cid ∈ storeIds s := by
  rw [List.any_eq_true]
  constructor
  · rintro ⟨r, hr, hb⟩
    exact List.mem_map.mpr ⟨r, hr, beq_iff_eq.mp hb⟩
  · intro h
    obtain ⟨r, hr, heq⟩ := List.mem_map.mp h
    exact ⟨r, hr, beq_iff_eq.mpr heq⟩

theorem storeIds_upsert (s : Store) (cid title text tags : String) :
    storeIds (upsertChunk s cid title text tags) =
      if cid ∈ storeIds s then storeIds s else storeIds s ++ [cid] := by
  unfold upsertChunk
  by_cases hmem : cid ∈ storeIds s
  · rw [if_pos (mem_storeIds_iff_any.mpr hmem), if_pos hmem]
    unfold storeIds
    rw [List.map_map]
    apply List.map_congr_left
    intro r _
    by_cases hb : (r.id == cid) = true
    · simp only [Function.comp, hb, if_true]
      exact (beq_iff_eq.mp hb).symm
    · simp [Function.comp, hb]
  · rw [if_neg (fun hc => hmem (mem_storeIds_iff_any.mp hc)), if_neg hmem]
    unfold storeIds
    rw [List.map_append]
    rfl

theorem mem_storeIds_upsert (s : Store) (cid title text tags : String) :
    cid ∈ storeIds (upsertChunk s cid title text tags) := by
  rw [storeIds_upsert]
  by_cases h : cid ∈ storeIds s
  · rwa [if_pos h]
  · rw [if_neg h]; simp

theorem mem_storeIds_upsert_of_mem {d : String} (s : Store) (cid title text tags : String)
    (h : d ∈ storeIds s) : d ∈ storeIds (upsertChunk s cid title text tags) := by
  rw [storeIds_upsert]
  by_cases hc : cid ∈ storeIds s
  · rwa [if_pos hc]
  · rw [if_neg hc]; exact List.mem_append_left _ h

theorem storeIds_upsert_of_mem {s : Store} {cid : String} (title text tags : String)
    (h : cid ∈ storeIds s) :
    storeIds (upsertChunk s cid title text tags) = storeIds s := by
  rw [storeIds_upsert, if_pos h]

theorem ingestGo_ids_superset (path : String) :
    ∀ (chunks : List ParsedChunk) (s : Store) (n i : Nat),
      (∀ d ∈ ingestIdsFrom path i chunks, d ∈ storeIds (ingestGo path (s, n) i chunks).1) ∧
      (∀ d ∈ storeIds s, d ∈ storeIds (ingestGo path (s, n) i chunks).1) := by
  intro chunks
  induction chunks with
  | nil => exact fun s n i => ⟨by simp [ingestIdsFrom], fun d h => h⟩
  | cons ch rest ih =>
    intro s n i
    simp only [ingestGo, ingestIdsFrom]
    constructor
    · intro d hd
      rcases List.mem_cons.mp hd with rfl | hd'
      · exact (ih _ _ _).2 _ (mem_storeIds_upsert _ _ _ _ _)
      · exact (ih _ _ _).1 d hd'
    · intro d hd
      exact (ih _ _ _).2 d (mem_storeIds_upsert_of_mem _ _ _ _ _ hd)

theorem ingestGo_ids_invariant (path : String) :
    ∀ (chunks : List ParsedChunk) (s : Store) (n i : Nat),
      (∀ d ∈ ingestIdsFrom path i chunks, d ∈ storeIds s) →
      storeIds (ingestGo path (s, n) i chunks).1 = storeIds s := by
  intro chunks
  induction chunks with
  | nil => intro s n i _; rfl
  | cons ch rest ih =>
    intro s n i h
    have hid : chunkId path i ch.title ∈ storeIds s :=
      h _ (List.mem_cons_self _ _)
    have hkeep := storeIds_upsert_of_mem (s := s) ch.title ch.text (tagsCsv ch.tags) hid
    simp only [ingestGo]
    rw [ih _ _ _ (fun d hd => by rw [hkeep]; exact h d (List.mem_cons_of_mem _ hd))]
    exact hkeep

theorem ingestGo_count (path : String) :
    ∀ (chunks : List ParsedChunk) (s : Store) (n i : Nat),
      (ingestGo path (s, n) i chunks).2 = n + chunks.length := by
  intro chunks
  induction chunks with
  | nil => intro s n i; simp [ingestGo]
  | cons ch rest ih =>
    intro s n i
    simp only [ingestGo]
    rw [ih]
    simp only [List.length_cons]
    omega

theorem ingestIdsFrom_titles (path : String) :
    ∀ (chunks chunks' : List ParsedChunk) (i : Nat),
      chunks.map ParsedChunk.title = chunks'.map ParsedChunk.title →
      ingestIdsFrom path i chunks = ingestIdsFrom path i chunks' := by
  intro chunks
  induction chunks with
  | nil =>
    intro chunks' i h
    cases chunks' with
    | nil => rfl
    | cons c cs => simp at h
  | cons ch rest ih =>
    intro chunks' i h
    cases chunks' with
    | nil => simp at h
    | cons c cs =>
      simp only [List.map_cons, List.cons.injEq] at h
      simp only [ingestIdsFrom, h.1, ih cs (i + 1) h.2]

/-- Claim C7: chunk ids are a stable function of (source path, index,
title), so re-ingesting a source — even with changed chunk bodies — yields
the same id sequence, and a second ingestion of the same chunks leaves the
store's id column unchanged; each pass reports the chunk count. -/
theorem claim_C7 (store : Store) (path : String) (chunks chunks' : List ParsedChunk)
    (h : chunks.map ParsedChunk.title = chunks'.map ParsedChunk.title) :
    ingestIds path chunks = ingestIds path chunks' ∧
    storeIds (ingestHtml (ingestHtml store path chunks).1 path chunks).1 =
      storeIds (ingestHtml store path chunks).1 ∧
    (ingestHtml store path chunks).2 = chunks.length ∧
    (ingestHtml (ingestHtml store path chunks).1 path chunks).2 = chunks.length := by
  refine ⟨ingestIdsFrom_titles path chunks chunks' 0 h, ?_, ?_, ?_⟩
  · exact ingestGo_ids_invariant path chunks _ 0 0
      (fun d hd => (ingestGo_ids_superset path chunks store 0 0).1 d hd)
  · unfold ingestHtml
    rw [ingestGo_count]
    omega
  · unfold ingestHtml
    rw [ingestGo_count]
    omega

/-- Claim C7 witness: ingestion-identity theorem applied to two concrete
chunk lists with identical titles but different bodies and tags, into the
empty store. -/
theorem claim_C7_witness :
    ingestIds "/home/u/m.html" wChunks1 = ingestIds "/home/u/m.html" wChunks2 ∧
    storeIds (ingestHtml (ingestHtml [] "/home/u/m.html" wChunks1).1 "/home/u/m.html" wChunks1).1 =
      storeIds (ingestHtml [] "/home/u/m.html" wChunks1).1 ∧
    (ingestHtml [] "/home/u/m.html" wChunks1).2 = wChunks1.length ∧
    (ingestHtml (ingestHtml [] "/home/u/m.html" wChunks1).1 "/home/u/m.html" wChunks1).2 =
      wChunks1.length :=
  claim_C7 [] "/home/u/m.html" wChunks1 wChunks2 rfl

/-- Claim C8 counterexample: the Anthropic backend has no fallback chain.
With a transport that rejects the configured model `m1` but would succeed
for every other identifier (as the `m2` run shows), `plan_with_anthropic`
returns the request-error plan instead of retrying a next identifier. -/
theorem claim_C8_counterexample :
    planWithAnthropic "key" "" wAnthPost "m1" wSecretPayload true =
      some (planNotes ["anthropic_request_error:refused"]) ∧
    planWithAnthropic "key" "" wAnthPost "m2" wSecretPayload true = some wAnthOkPlan :=
  ⟨rfl, rfl⟩

/-- Claim C8 as amended: only the OpenAI backend has a configurable
ordered fallback chain (`AIC_OPENAI_FALLBACKS` or a default list): the
first successful model short-circuits, a per-model exception moves to the
next identifier, and an exhausted chain reports the last error with the
chain tried; `plan_with_openai` runs that chain on the slim payload built
from the (possibly redacted) request. -/
theorem claim_C8_amended :
    (∀ (attempt : Bool → String → Except String JVal) tried rest last m p,
      attempt (wantResponsesApi m) m = Except.ok p →
      tryChain attempt tried (m :: rest) last = p) ∧
    (∀ (attempt : Bool → String → Except String JVal) tried rest last m e,
      attempt (wantResponsesApi m) m = Except.error e →
      tryChain attempt tried (m :: rest) last = tryChain attempt tried rest (some e)) ∧
    (∀ (attempt : Bool → String → Except String JVal) tried e,
      tryChain attempt tried [] (some e) =
        fallbackPlanJ ("openai_error:" ++ e ++ "; model_chain_tried=" ++
          pyRepr (.arr (tried.map JVal.str)))) ∧
    (∀ env model s, env.fallbacks = some s → s.data.isEmpty = false →
      modelsToTry env model = model :: parseFallbacks s) ∧
    (∀ env model, env.fallbacks = none → modelsToTry env model = model :: openaiDefaultChain) ∧
    (∀ env (attempt : Bool → String → JVal → Except String JVal) model payload ac key blob,
      env.apiKey = some key → key.data.isEmpty = false →
      userPayloadSlim (redact payload ac) = some blob →
      planWithOpenai env attempt model payload ac =
        some (tryChain (fun api m => attempt api m blob) (modelsToTry env model)
          (modelsToTry env model) none)) := by
  refine ⟨?_, ?_, ?_, ?_, ?_, ?_⟩
  · intro attempt tried rest last m p h
    simp [tryChain, h]
  · intro attempt tried rest last m e h
    simp [tryChain, h]
  · intro attempt tried e
    rfl
  · intro env model s hs hne
    simp [modelsToTry, hs, hne]
  · intro env model hn
    simp [modelsToTry, hn]
  · intro env attempt model payload ac key blob hk hne hblob
    unfold planWithOpenai
    rw [hk]
    simp only [hne, Bool.false_eq_true, if_false, hblob]

/-- Claim C8 witness: the chain theorem at a concrete environment whose
override chain is `m-good`; the first model fails, the fallback succeeds,
and the first success is returned. -/
theorem claim_C8_witness :
    planWithOpenai ⟨some "k", some "m-good"⟩ (fun api m _ => wAttempt api m)
      "m-bad" wSecretPayload true = some (planNotes ["hello"]) := by
  rw [claim_C8_amended.2.2.2.2.2 ⟨some "k", some "m-good"⟩
    (fun api m _ => wAttempt api m) "m-bad" wSecretPayload true "k"
    wSlimRaw rfl rfl rfl]
  have hc : modelsToTry ⟨some "k", some "m-good"⟩ "m-bad" = ["m-bad", "m-good"] := by
    decide
  rw [hc]
  rw [claim_C8_amended.2.1 _ _ _ _ "m-bad" "boom" rfl]
  rw [claim_C8_amended.1 _ _ _ _ "m-good" (planNotes ["hello"]) rfl]

set_option maxRecDepth 100000 in
/-- Claim C9: redaction is the identity when cloud egress is allowed; both
hosted backends build their request from the redacted payload (the secret
and the private address are masked when `allow_cloud` is false and kept
when it is true), and the local backend's prompt always carries the raw
payload. -/
theorem claim_C9 :
    (∀ p, redact p true = p) ∧
    planWithOpenai ⟨some "k", none⟩ wSpyAttempt "gpt-4o" wSecretPayload false =
      some (.obj [("echo", wSlimRedacted)]) ∧
    planWithOpenai ⟨some "k", none⟩ wSpyAttempt "gpt-4o" wSecretPayload true =
      some (.obj [("echo", wSlimRaw)]) ∧
    (∃ prompt, buildPrompt (redact wSecretPayload false) = some prompt ∧
      containsSub prompt.data "<PASSWORD>".data = true ∧
      containsSub prompt.data "hunter2secret".data = false) ∧
    (∃ prompt, buildOllamaPrompt wSecretPayload = some prompt ∧
      planWithOllama wOllamaEcho "llama3.2:1b" "llama3.2:1b" wSecretPayload =
        some (planNotes ["ollama_request_error:" ++ prompt]) ∧
      containsSub prompt.data "hunter2secret".data = true) := by
  refine ⟨fun p => rfl, rfl, rfl, ⟨_, rfl, by decide, by decide⟩, ⟨_, rfl, rfl, by decide⟩⟩

/-! ### Orchestrator lemmas -/

theorem foldRetr_ok (env : AgentEnv)
    (hr : ∀ t, ∃ rs, env.retrieveF t = .ok rs) :
    ∀ (l : List String) (acc : List Snippet),
      ∃ rs, l.foldlM (fun acc t => (env.retrieveF t).map (fun rs => acc ++ rs)) acc =
        .ok rs := by
  intro l
  induction l with
  | nil => intro acc; exact ⟨acc, rfl⟩
  | cons t rest ih =>
    intro acc
    obtain ⟨rs0, hrs0⟩ := hr t
    obtain ⟨rs2, hrs2⟩ := ih (acc ++ rs0)
    refine ⟨rs2, ?_⟩
    simp only [List.foldlM, hrs0, Except.map]
    exact hrs2

theorem gatherRetrieved_ok (env : AgentEnv)
    (hr : ∀ t, ∃ rs, env.retrieveF t = .ok rs) (topics : List String) :
    ∃ rs, gatherRetrieved env topics = .ok rs :=
  foldRetr_ok env hr (topics.take 3) []

theorem coercePlan_dry :
    coercePlan dryPlanJ = some ⟨[], [.str "dry-run enabled: no model call"], []⟩ := rfl

theorem coercePlan_modelError (e : String) :
    coercePlan (modelErrorPlan e) = some ⟨[], [.str ("model_error:" ++ e)], []⟩ := rfl

theorem processEvent_ok (env : AgentEnv) (evt : LogEvent)
    (hr : ∀ t, ∃ rs, env.retrieveF t = .ok rs)
    (hshape : (deriveTopics (env.gatherFacts evt)).isSome)
    (hcoerce : ∀ payload p, env.planCall payload = .ok p → (coercePlan p).isSome) :
    ∃ r, processEvent env evt = some r ∧
      r.ts = evt.ts ∧ r.cmd = evt.cmd ∧ r.cwd = evt.cwd ∧ r.exit = evt.exit := by
  unfold processEvent
  obtain ⟨topics, htop⟩ := Option.isSome_iff_exists.mp hshape
  obtain ⟨rs, hrs⟩ := gatherRetrieved_ok env hr topics
  rw [htop]
  simp only [Option.bind, hrs]
  by_cases hd : env.dryRun
  · refine ⟨⟨evt.ts, evt.cmd, evt.cwd, evt.exit, env.gatherFacts evt,
      ⟨[], [.str "dry-run enabled: no model call"], []⟩⟩, ?_, rfl, rfl, rfl, rfl⟩
    simp [hd, coercePlan_dry]
  · cases hpc : env.planCall (buildPayload env evt (env.gatherFacts evt) rs) with
    | ok p =>
      obtain ⟨pc, hpcs⟩ := Option.isSome_iff_exists.mp (hcoerce _ p hpc)
      refine ⟨⟨evt.ts, evt.cmd, evt.cwd, evt.exit, env.gatherFacts evt, pc⟩,
        ?_, rfl, rfl, rfl, rfl⟩
      simp [hd, hpc, hpcs]
    | error e =>
      refine ⟨⟨evt.ts, evt.cmd, evt.cwd, evt.exit, env.gatherFacts evt,
        ⟨[], [.str ("model_error:" ++ e)], []⟩⟩, ?_, rfl, rfl, rfl, rfl⟩
      simp [hd, hpc, coercePlan_modelError]

/-- Claim C2 as amended: when the retrieval store raises no exception (and
the provider's successful results are well-shaped plans), a batch with N
parseable lines appends exactly N audit records, one per parseable
LogEvent, in the same relative order; a provider failure is caught per
event and still yields a (degraded) record.  However — see the
counterexample — a retrieval exception aborts the batch without a record. -/
theorem claim_C2_amended (env : AgentEnv) (lines : List String)
    (hr : ∀ t, ∃ rs, env.retrieveF t = .ok rs)
    (hshape : ∀ evt, (deriveTopics (env.gatherFacts evt)).isSome)
    (hcoerce : ∀ payload p, env.planCall payload = .ok p → (coercePlan p).isSome) :
    (processBatch env lines).length = (validEvents lines).length ∧
    (processBatch env lines).map (fun r => (r.ts, r.cmd, r.cwd, r.exit)) =
      (validEvents lines).map (fun e => (e.ts, e.cmd, e.cwd, e.exit)) := by
  induction lines with
  | nil => exact ⟨rfl, rfl⟩
  | cons line rest ih =>
    cases hle : lineEvent line with
    | none =>
      simpa [processBatch, validEvents, List.filterMap_cons, hle] using ih
    | some evt =>
      obtain ⟨r, hre, h1, h2, h3, h4⟩ := processEvent_ok env evt hr (hshape evt) hcoerce
      refine ⟨?_, ?_⟩
      · simpa [processBatch, validEvents, List.filterMap_cons, hle, hre] using ih.1
      · simp only [processBatch, validEvents, List.filterMap_cons, hle, hre,
          List.map_cons, h1, h2, h3, h4]
        exact congrArg _ ih.2

/-- Claim C2 counterexample: one valid line, but the retrieval store
raises — the batch produces no audit record at all (the exception escapes
to the loop's outer handler after the read cursor advanced), so the
"retrieval failures still yield a degraded audit record" part of the claim
is false. -/
theorem claim_C2_counterexample :
    (validEvents [wLine]).length = 1 ∧
    processBatch wEnvRetrFail [wLine] = [] :=
  ⟨by decide, rfl⟩

/-- Claim C2 witness: the amended theorem at a concrete batch of two valid
lines, one junk line and one blank line, against an environment whose
provider always fails: two records, in order. -/
theorem claim_C2_witness :
    (processBatch wEnvProviderDown [wLine, "not json", "", wLine2]).length =
      (validEvents [wLine, "not json", "", wLine2]).length ∧
    (processBatch wEnvProviderDown [wLine, "not json", "", wLine2]).map
        (fun r => (r.ts, r.cmd, r.cwd, r.exit)) =
      (validEvents [wLine, "not json", "", wLine2]).map
        (fun e => (e.ts, e.cmd, e.cwd, e.exit)) :=
  claim_C2_amended wEnvProviderDown [wLine, "not json", "", wLine2]
    (fun _ => ⟨[], rfl⟩) (fun _ => rfl) (fun _ p h => nomatch h)

/-- Claim C4 counterexample: on an empty backend result `_coerce_plan`
writes the marker `"empty_model_response"`, not the `"empty response"` the
claim states. -/
theorem claim_C4_counterexample :
    (coercePlan (JVal.str "")).map PlanJ.notes = some [JVal.str "empty_model_response"] ∧
    "empty_model_response" ≠ "empty response" :=
  ⟨rfl, by decide⟩

/-- Claim C4 as amended: for an absent (`None`) or empty-string backend
result, the coerced plan has the single fixed marker note
`"empty_model_response"` and no next actions. -/
theorem claim_C4_amended :
    (coercePlan JVal.null).map PlanJ.notes = some [JVal.str "empty_model_response"] ∧
    (coercePlan JVal.null).map PlanJ.next_actions = some [] ∧
    (coercePlan (JVal.str "")).map PlanJ.notes = some [JVal.str "empty_model_response"] ∧
    (coercePlan (JVal.str "")).map PlanJ.next_actions = some [] :=
  ⟨rfl, rfl, rfl, rfl⟩

/-- Claim C10 witness: the shape-preservation theorem at concrete fact sets,
where the incoming `entities` dict carries a `ports` sub-key that the
accumulator's `entities` lacks. -/
theorem claim_C10_witness :
    List.lookup "entities" (mergeFacts wFactsA wFactsB) =
      some (.node (mergeNodeSub
        [("ips", [FAtom.s "10.0.0.5"]), ("urls", [])]
        [("ips", [FAtom.s "8.8.8.8", FAtom.s "10.0.0.5"]), ("ports", [FAtom.n 80])])) ∧
    (mergeNodeSub
        [("ips", [FAtom.s "10.0.0.5"]), ("urls", [])]
        [("ips", [FAtom.s "8.8.8.8", FAtom.s "10.0.0.5"]), ("ports", [FAtom.n 80])]).map Prod.fst =
      [("ips", [FAtom.s "10.0.0.5"]), ("urls", ([] : List FAtom))].map Prod.fst ∧
    (∀ sk, sk ∉ [("ips", [FAtom.s "10.0.0.5"]), ("urls", ([] : List FAtom))].map Prod.fst →
      sk ∉ (mergeNodeSub
        [("ips", [FAtom.s "10.0.0.5"]), ("urls", [])]
        [("ips", [FAtom.s "8.8.8.8", FAtom.s "10.0.0.5"]), ("ports", [FAtom.n 80])]).map Prod.fst) ∧
    (∀ k2 v2, (k2, v2) ∈ wFactsB → List.lookup k2 wFactsA = none →
      (k2, v2) ∈ mergeFacts wFactsA wFactsB) ∧
    (mergeFacts wFactsA wFactsB).map Prod.fst =
      wFactsA.map Prod.fst
        ++ (wFactsB.filter (fun q => (List.lookup q.1 wFactsA).isNone)).map Prod.fst :=
  claim_C10 wFactsA wFactsB (by decide) (by decide) (by decide)
    "entities"
    [("ips", [FAtom.s "10.0.0.5"]), ("urls", [])]
    [("ips", [FAtom.s "8.8.8.8", FAtom.s "10.0.0.5"]), ("ports", [FAtom.n 80])]
    (by decide) (by decide)

end Sidecar
